import Mathlib

/-!
Verification of the orbital-mechanics core of the Gravity_p5JS repository.

The development shallowly embeds the `CelestialBody` class and the per-frame
`draw` loop of the current implementation (the sketch defining `CelestialBody`
with the `gravitationalParameter` getter, the configuration menu and the
escape lifecycle), together with the p5.js vector primitives it calls.

Number model: JavaScript numbers are modelled by `JF`, an exact fraction
(`QQ`, an integer numerator over a natural denominator, kept unnormalised so
that every operation is a structural computation) extended with the IEEE
special values +Infinity, -Infinity and NaN.  Arithmetic on finite values is
exact rational arithmetic; the special values follow the JavaScript rules for
the operations the sketch uses (x/0, 0*Infinity, comparisons with NaN, ...).
`Math.sqrt` is modelled by a floor square root on fractions: it is exact
whenever the argument is the square of a fraction (every concrete input used
in the theorems below is chosen so that this is the case) and a deterministic
under-approximation otherwise, mirroring the fact that the double-precision
sqrt is itself approximate.  Overflow of finite doubles is not modelled.

p5.js semantics captured here (p5 1.x): `p5.Vector.mult` and `p5.Vector.div`
with a non-finite scalar warn and leave the vector unchanged, `div` by 0
warns and leaves the vector unchanged, `normalize` of the zero vector is the
zero vector, and `rotate(HALF_PI)` is modelled as an exact quarter turn.
-/

set_option linter.unnecessarySeqFocus false

namespace Gravity

/-- Bisection step for the floor square root: maintains `lo * lo ≤ n < hi * hi`. -/
def sqrtGo : Nat → Nat → Nat → Nat → Nat
  | 0, _, lo, _ => lo
  | f + 1, n, lo, hi =>
    if hi ≤ lo + 1 then lo
    else
      let m := (lo + hi) / 2
      if m * m ≤ n then sqrtGo f n m hi else sqrtGo f n lo m

/-- Floor square root of a natural number, kernel-computable by bisection. -/
def natSqrt (n : Nat) : Nat := sqrtGo (n + 1) n 0 (n + 1)

theorem sqrtGo_correct (f : Nat) : ∀ n lo hi : Nat, lo * lo ≤ n → n < hi * hi →
    lo < hi → hi - lo ≤ 2 ^ f →
    sqrtGo f n lo hi * sqrtGo f n lo hi ≤ n ∧
      n < (sqrtGo f n lo hi + 1) * (sqrtGo f n lo hi + 1) := by
  induction f with
  | zero =>
    intro n lo hi h1 h2 h3 h4
    have hhi : hi = lo + 1 := by omega
    subst hhi
    exact ⟨h1, h2⟩
  | succ f ih =>
    intro n lo hi h1 h2 h3 h4
    rw [sqrtGo]
    by_cases hbase : hi ≤ lo + 1
    · have hhi : hi = lo + 1 := by omega
      subst hhi
      simp only [if_pos (by omega : lo + 1 ≤ lo + 1)]
      exact ⟨h1, h2⟩
    · rw [if_neg hbase]
      have hpow : 2 ^ (f + 1) = 2 ^ f * 2 := pow_succ 2 f
      by_cases hm : ((lo + hi) / 2) * ((lo + hi) / 2) ≤ n
      · simp only [if_pos hm]
        exact ih n ((lo + hi) / 2) hi hm h2 (by omega) (by omega)
      · simp only [if_neg hm]
        exact ih n lo ((lo + hi) / 2) h1 (by omega) (by omega) (by omega)

theorem natSqrt_bounds (n : Nat) :
    natSqrt n * natSqrt n ≤ n ∧ n < (natSqrt n + 1) * (natSqrt n + 1) := by
  have hlt : n + 1 ≤ 2 ^ (n + 1) := le_of_lt (Nat.lt_two_pow (n + 1))
  have hsq : n < (n + 1) * (n + 1) := by nlinarith
  exact sqrtGo_correct (n + 1) n 0 (n + 1) (by omega) hsq (by omega) (by omega)

theorem natSqrt_sq (t : Nat) : natSqrt (t * t) = t := by
  have h := natSqrt_bounds (t * t)
  have h1 : natSqrt (t * t) ≤ t := by nlinarith [h.1]
  have h2 : t ≤ natSqrt (t * t) := by nlinarith [h.2]
  omega

theorem natSqrt_pos (n : Nat) (h : 1 ≤ n) : 1 ≤ natSqrt n := by
  rcases Nat.eq_zero_or_pos (natSqrt n) with h0 | h1
  · have hb := (natSqrt_bounds n).2
    rw [h0] at hb
    omega
  · exact h1

/-- Exact fractions: an integer numerator over a natural denominator, kept
unnormalised so that all arithmetic is structural (kernel-computable). -/
structure QQ where
  num : Int
  den : Nat
deriving DecidableEq, Repr

namespace QQ

def ofInt (n : Int) : QQ := ⟨n, 1⟩

def add (p q : QQ) : QQ := ⟨p.num * q.den + q.num * p.den, p.den * q.den⟩

def neg (p : QQ) : QQ := ⟨-p.num, p.den⟩

def sub (p q : QQ) : QQ := p.add q.neg

def mul (p q : QQ) : QQ := ⟨p.num * q.num, p.den * q.den⟩

/-- Division; callers ensure the divisor is nonzero.  The sign adjustment
keeps the denominator a natural number. -/
def div (p q : QQ) : QQ := ⟨p.num * q.den * q.num.sign, p.den * q.num.natAbs⟩

def abs (p : QQ) : QQ := ⟨p.num.natAbs, p.den⟩

def isZero (p : QQ) : Bool := p.num == 0

def isNeg (p : QQ) : Bool := p.num < 0

def blt (p q : QQ) : Bool := p.num * q.den < q.num * p.den

def ble (p q : QQ) : Bool := p.num * q.den ≤ q.num * p.den

def beq (p q : QQ) : Bool := p.num * q.den == q.num * p.den

/-- Floor square root of a nonnegative fraction: `sqrt (a/b) = natSqrt (a*b) / b`.
Exact whenever `a/b` is the square of a fraction. -/
def sqrtQ (p : QQ) : QQ := ⟨natSqrt (p.num.toNat * p.den), p.den⟩

/-- Denominator is positive: the well-formedness every reachable value enjoys. -/
def Wf (p : QQ) : Prop := 0 < p.den

instance (p : QQ) : Decidable p.Wf := by unfold Wf; infer_instance

end QQ

/-- Model of a JavaScript number: an exact finite fraction or one of the IEEE
special values. -/
inductive JF where
  | fin : QQ → JF
  | pinf : JF
  | ninf : JF
  | nan : JF
deriving DecidableEq, Repr

namespace JF

def ofInt (n : Int) : JF := fin (QQ.ofInt n)

def add : JF → JF → JF
  | nan, _ => nan
  | _, nan => nan
  | fin p, fin q => fin (p.add q)
  | fin _, pinf => pinf
  | pinf, fin _ => pinf
  | fin _, ninf => ninf
  | ninf, fin _ => ninf
  | pinf, pinf => pinf
  | ninf, ninf => ninf
  | pinf, ninf => nan
  | ninf, pinf => nan

def neg : JF → JF
  | fin p => fin p.neg
  | pinf => ninf
  | ninf => pinf
  | nan => nan

def sub (a b : JF) : JF := a.add b.neg

def mul : JF → JF → JF
  | nan, _ => nan
  | _, nan => nan
  | fin p, fin q => fin (p.mul q)
  | fin p, pinf => if p.isZero then nan else if p.isNeg then ninf else pinf
  | pinf, fin p => if p.isZero then nan else if p.isNeg then ninf else pinf
  | fin p, ninf => if p.isZero then nan else if p.isNeg then pinf else ninf
  | ninf, fin p => if p.isZero then nan else if p.isNeg then pinf else ninf
  | pinf, pinf => pinf
  | pinf, ninf => ninf
  | ninf, pinf => ninf
  | ninf, ninf => pinf

def div : JF → JF → JF
  | nan, _ => nan
  | _, nan => nan
  | fin p, fin q =>
    if q.isZero then
      if p.isZero then nan else if p.isNeg then ninf else pinf
    else fin (p.div q)
  | fin _, pinf => fin (QQ.ofInt 0)
  | fin _, ninf => fin (QQ.ofInt 0)
  | pinf, fin q => if q.isNeg then ninf else pinf
  | ninf, fin q => if q.isNeg then pinf else ninf
  | pinf, pinf => nan
  | pinf, ninf => nan
  | ninf, pinf => nan
  | ninf, ninf => nan

def sqrt : JF → JF
  | fin p => if p.isNeg then nan else fin p.sqrtQ
  | pinf => pinf
  | ninf => nan
  | nan => nan

def abs : JF → JF
  | fin p => fin p.abs
  | pinf => pinf
  | ninf => pinf
  | nan => nan

/-- JavaScript `<` (false whenever NaN is involved). -/
def ltb : JF → JF → Bool
  | nan, _ => false
  | _, nan => false
  | fin p, fin q => p.blt q
  | fin _, pinf => true
  | pinf, fin _ => false
  | fin _, ninf => false
  | ninf, fin _ => true
  | pinf, pinf => false
  | ninf, ninf => false
  | ninf, pinf => true
  | pinf, ninf => false

/-- JavaScript `<=` (false whenever NaN is involved). -/
def leb : JF → JF → Bool
  | nan, _ => false
  | _, nan => false
  | fin p, fin q => p.ble q
  | fin _, pinf => true
  | pinf, fin _ => false
  | fin _, ninf => false
  | ninf, fin _ => true
  | pinf, pinf => true
  | ninf, ninf => true
  | ninf, pinf => true
  | pinf, ninf => false

def gtb (a b : JF) : Bool := ltb b a

def geb (a b : JF) : Bool := leb b a

/-- JavaScript strict equality with `0` (used by the p5 guards `len !== 0`
and `n === 0`). -/
def eqZeroB : JF → Bool
  | fin p => p.isZero
  | _ => false

def isFiniteB : JF → Bool
  | fin _ => true
  | _ => false

/-- Value equality, used for stating theorems about computed results without
fixing a fraction representative (NaN is equal to NaN here; this is a
statement tool, not the JavaScript `===`). -/
def numEq : JF → JF → Bool
  | fin p, fin q => p.beq q
  | pinf, pinf => true
  | ninf, ninf => true
  | nan, nan => true
  | _, _ => false

/-- Finite value with a positive denominator. -/
def WfFin (a : JF) : Prop := ∃ q : QQ, a = fin q ∧ q.Wf

end JF

/-- A p5 vector (the z component is always zero in this sketch and is
omitted). -/
structure Vec where
  x : JF
  y : JF
deriving DecidableEq, Repr

namespace Vec

def zero : Vec := ⟨JF.ofInt 0, JF.ofInt 0⟩

def add (v w : Vec) : Vec := ⟨v.x.add w.x, v.y.add w.y⟩

def sub (v w : Vec) : Vec := ⟨v.x.sub w.x, v.y.sub w.y⟩

def magSq (v : Vec) : JF := (v.x.mul v.x).add (v.y.mul v.y)

def mag (v : Vec) : JF := v.magSq.sqrt

/-- p5.Vector.mult with a scalar: a non-finite scalar is rejected with a
console warning and leaves the vector unchanged. -/
def scale (v : Vec) (n : JF) : Vec :=
  if n.isFiniteB then ⟨v.x.mul n, v.y.mul n⟩ else v

/-- p5.Vector.div with a scalar: a non-finite or zero scalar is rejected with
a console warning and leaves the vector unchanged. -/
def divScalar (v : Vec) (n : JF) : Vec :=
  match n with
  | JF.fin q => if q.isZero then v else ⟨v.x.div (JF.fin q), v.y.div (JF.fin q)⟩
  | _ => v

/-- p5.Vector.normalize: `if (len !== 0) this.mult(1 / len)`. -/
def normalize (v : Vec) : Vec :=
  let len := v.mag
  if len.eqZeroB then v else v.scale ((JF.ofInt 1).div len)

/-- p5.Vector.setMag: `this.normalize().mult(n)`. -/
def setMag (v : Vec) (n : JF) : Vec := v.normalize.scale n

def dist (v w : Vec) : JF := (sub v w).mag

/-- z component of the 3-D cross product of two in-plane vectors
(`p5.Vector.cross(r, v)` yields `(0, 0, crossZ r v)`). -/
def crossZ (v w : Vec) : JF := (v.x.mul w.y).sub (v.y.mul w.x)

/-- In-plane content of `p5.Vector.cross(v, (0, 0, h))`:
`(v.y * h, 0 - v.x * h, 0)`. -/
def crossWithZ (v : Vec) (h : JF) : Vec := ⟨v.y.mul h, (v.x.mul h).neg⟩

/-- p5 rotate by `HALF_PI * sign`, modelled as an exact quarter turn
(`true` is the positive turn). -/
def rotateQuarter (v : Vec) (pos : Bool) : Vec :=
  if pos then ⟨v.y.neg, v.x⟩ else ⟨v.y, v.x.neg⟩

def WfFin (v : Vec) : Prop := v.x.WfFin ∧ v.y.WfFin

end Vec

/-- Gravitational constant of the sketch: `const GRAVITY = 0.1`. -/
def GRAVITY : JF := JF.fin ⟨1, 10⟩

/-- A `CelestialBody`.  JavaScript objects are identified by a stable `id`
(object identity); the live `parent` object reference becomes `parent :
Option Nat` holding the parent's id.  The presentation-only attributes
`size` and `color`, never read by the physics, are omitted.  The derived
orbital fields are `undefined` in JavaScript until the first
`calculateOrbitalParameters` assigns them; they are initialised to zero here
and are never read before assignment on the modelled paths. -/
structure Body where
  id : Nat
  mass : JF
  position : Vec
  velocity : Vec
  acceleration : Vec
  parent : Option Nat
  timeOut : Int
  eccentricityVector : Vec
  eccentricity : JF
  semimajorAxis : JF
  semiminorAxis : JF
deriving DecidableEq, Repr

/-- The simulation state: `bodies` is the global `bodies` array (in order);
`removed` holds spliced-out bodies, still reachable through `parent` object
references in JavaScript; `width`/`height` are the canvas dimensions. -/
structure Sim where
  bodies : List Body
  removed : List Body
  nextId : Nat
  width : QQ
  height : QQ
deriving DecidableEq, Repr

/-- `const centerX = () => width / 2`. -/
def centerX (s : Sim) : JF := JF.fin (s.width.div (QQ.ofInt 2))

/-- `const centerY = () => height / 2`. -/
def centerY (s : Sim) : JF := JF.fin (s.height.div (QQ.ofInt 2))

/-- Dereference a body id: a JavaScript object reference stays valid even
after the body is spliced out of `bodies`, hence the search includes
`removed`. -/
def lookup (s : Sim) (i : Nat) : Option Body :=
  (s.bodies ++ s.removed).find? (fun b => b.id == i)

/-- The getter `get gravitationalParameter()`: recomputed from the current
masses on every access.  The `lookup = none` branch cannot occur for
reachable states (the parent object always exists in JavaScript). -/
def gravitationalParameter (s : Sim) (b : Body) : JF :=
  match b.parent with
  | none => GRAVITY.mul b.mass
  | some p =>
    match lookup s p with
    | some pb => GRAVITY.mul (pb.mass.add b.mass)
    | none => GRAVITY.mul b.mass

/-- `calculateOrbitalParameters()`: writes the derived orbital fields and
returns the eccentricity (0 for a body without a parent, which is left
unchanged). -/
def calculateOrbitalParameters (s : Sim) (b : Body) : Body × JF :=
  match b.parent with
  | none => (b, JF.ofInt 0)
  | some p =>
    match lookup s p with
    | none => (b, JF.ofInt 0)
    | some pb =>
      let u := gravitationalParameter s b
      let relativePosition := Vec.sub b.position pb.position
      let specificAngularMomentum :=
        Vec.crossWithZ b.velocity (Vec.crossZ relativePosition b.velocity)
      let ev := Vec.sub (Vec.divScalar specificAngularMomentum u)
        (Vec.normalize relativePosition)
      let ecc := Vec.mag ev
      let magR := Vec.mag relativePosition
      let magV := Vec.mag b.velocity
      let a := JF.div ((u.mul magR).neg)
        (((magR.mul (magV.mul magV))).sub ((JF.ofInt 2).mul u))
      let bAxis := a.mul (JF.sqrt ((JF.ofInt 1).sub (ecc.mul ecc)))
      ({ b with
          eccentricityVector := ev
          eccentricity := ecc
          semimajorAxis := a
          semiminorAxis := bAxis }, ecc)

/-- The `CelestialBody` constructor: rejects `mass <= 0`, otherwise builds
the body (acceleration zero, `timeOut = 100`) and immediately computes its
orbital parameters. -/
def mkBody (s : Sim) (i : Nat) (mass : JF) (x y vx vy : JF)
    (parent : Option Nat) : Except String Body :=
  if mass.leb (JF.ofInt 0) then Except.error "Mass must be positive"
  else
    let b0 : Body :=
      { id := i
        mass := mass
        position := ⟨x, y⟩
        velocity := ⟨vx, vy⟩
        acceleration := Vec.zero
        parent := parent
        timeOut := 100
        eccentricityVector := Vec.zero
        eccentricity := JF.ofInt 0
        semimajorAxis := JF.ofInt 0
        semiminorAxis := JF.ofInt 0 }
    Except.ok (calculateOrbitalParameters s b0).1

/-- `addSatellite(mass, size, color, satellitePos, eccentricity = 0)` of the
current sketch (vis-viva form).  The random `velocitySign` is an injected
parameter (`true` for the positive quarter turn).  A constructor throw
propagates before `bodies.push`, leaving the state unchanged. -/
def addSatellite (s : Sim) (self : Body) (mass : JF) (satellitePos : Vec)
    (eccentricity : JF) (velocitySign : Bool) : Except String Sim :=
  let distanceToParent := Vec.dist satellitePos self.position
  let velocityMagnitude := JF.sqrt ((gravitationalParameter s self).mul
    (((JF.ofInt 2).div distanceToParent).sub
      ((JF.ofInt 1).div (distanceToParent.div ((JF.ofInt 1).add eccentricity)))))
  let velocityVector := Vec.setMag
    (Vec.rotateQuarter (Vec.sub satellitePos self.position) velocitySign)
    velocityMagnitude
  match mkBody s s.nextId mass (self.position.x.add satellitePos.x)
      (self.position.y.add satellitePos.y) velocityVector.x velocityVector.y
      (some self.id) with
  | Except.error e => Except.error e
  | Except.ok sat =>
    Except.ok { s with bodies := s.bodies ++ [sat], nextId := s.nextId + 1 }

/-- One pairwise term of `applyGravity`: `d = other.pos - this.pos`,
`force = G * m_this * m_other / |d|^2`, accumulated as
`d.setMag(force / m_this)`. -/
def gravContrib (self other : Body) : Vec :=
  let distance := Vec.sub other.position self.position
  let rSquared := Vec.magSq distance
  let force := ((GRAVITY.mul self.mass).mul other.mass).div rSquared
  Vec.setMag distance (force.div self.mass)

/-- `applyGravity()`: resets the acceleration to zero, then accumulates the
contribution of every other body (`other === this` skipped by identity). -/
def applyGravity (s : Sim) (self : Body) : Body :=
  { self with
      acceleration := s.bodies.foldl
        (fun acc other =>
          if other.id == self.id then acc else Vec.add acc (gravContrib self other))
        Vec.zero }

/-- Loop body of `checkOtherBodies`: walks the candidate list threading the
body (whose derived fields are mutated by each tentative
`calculateOrbitalParameters` call), the lowest eccentricity seen and the id
of the best parent; `break`s as soon as a candidate is below 0.1. -/
def checkLoop (s : Sim) (origId : Nat) :
    List Body → Body → JF → Nat → Body × JF × Nat
  | [], b, lowest, best => (b, lowest, best)
  | c :: rest, b, lowest, best =>
    if c.id == b.id || c.id == origId then checkLoop s origId rest b lowest best
    else
      let b1 := { b with parent := some c.id }
      let r := calculateOrbitalParameters s b1
      if r.2.ltb lowest then
        if r.2.ltb (JF.fin ⟨1, 10⟩) then (r.1, r.2, c.id)
        else checkLoop s origId rest r.1 r.2 c.id
      else checkLoop s origId rest r.1 lowest best

/-- `checkOtherBodies(eccentricity)`: tries every other body as a tentative
parent and commits the best one if it binds the orbit (eccentricity < 1),
otherwise reverts to the original parent.  Returns early (warning) if the
original parent is no longer in the `bodies` array. -/
def checkOtherBodies (s : Sim) (b : Body) (e : JF) : Body :=
  match b.parent with
  | none => b
  | some pid =>
    if (s.bodies.findIdx? (fun x => x.id == pid)).isNone then b
    else
      let r := checkLoop s pid s.bodies b e pid
      { r.1 with parent := some (if r.2.1.ltb (JF.ofInt 1) then r.2.2 else pid) }

/-- `checkOrbitAndRemove()` for the body at index `j`: recomputes the
eccentricity under the committed parent; if it is still `>= 1` the escape
timer is decremented and, once it is exhausted and the body is beyond the
viewport half-extent on both axes, the body is spliced out of `bodies`;
otherwise the timer is reset to 100. -/
def checkOrbitAndRemove (s : Sim) (j : Nat) : Sim :=
  match s.bodies[j]? with
  | none => s
  | some b =>
    let r := calculateOrbitalParameters s b
    if r.2.geb (JF.ofInt 1) then
      let b2 := { r.1 with timeOut := r.1.timeOut - 1 }
      if decide (b2.timeOut ≤ (0 : Int)) && b2.position.x.abs.gtb (centerX s) &&
          b2.position.y.abs.gtb (centerY s) then
        { s with bodies := s.bodies.eraseIdx j, removed := s.removed ++ [b2] }
      else { s with bodies := s.bodies.set j b2 }
    else { s with bodies := s.bodies.set j { r.1 with timeOut := 100 } }

/-- The explicit Euler step of `update()`:
`this.velocity.add(this.acceleration); this.position.add(this.velocity);`. -/
def integrate (b : Body) : Body :=
  let b1 := { b with velocity := Vec.add b.velocity b.acceleration }
  { b1 with position := Vec.add b1.position b1.velocity }

/-- `update()` for the body at index `j`: explicit Euler integration, then
orbital-element recomputation; only when the new eccentricity is strictly
greater than 1 and the body has a parent are the re-parenting search and the
escape lifecycle run. -/
def update (s : Sim) (j : Nat) : Sim :=
  match s.bodies[j]? with
  | none => s
  | some b =>
    let b2 := integrate b
    let s2 := { s with bodies := s.bodies.set j b2 }
    let r := calculateOrbitalParameters s2 b2
    let s3 := { s2 with bodies := s2.bodies.set j r.1 }
    if r.2.gtb (JF.ofInt 1) ∧ r.1.parent.isSome then
      let b4 := checkOtherBodies s3 r.1 r.2
      let s4 := { s3 with bodies := s3.bodies.set j b4 }
      checkOrbitAndRemove s4 j
    else s3

/-- The pinning `if (body === bodies[0]) body.position.set(0, 0)`: if the
head of the array is the iterated body (object identity, here id equality),
reset its position to the origin. -/
def pinFirst (su : Sim) (cid : Nat) : Sim :=
  match su.bodies[0]? with
  | some hd =>
    if hd.id == cid then
      { su with bodies := su.bodies.set 0 { hd with position := Vec.zero } }
    else su
  | none => su

/-- One iteration of the `draw` loop for the body at index `j`:
`body.applyGravity(); body.update();` and the pinning of `bodies[0]`. -/
def processBody (s : Sim) (j : Nat) : Sim :=
  match s.bodies[j]? with
  | none => s
  | some b =>
    let s1 := { s with bodies := s.bodies.set j (applyGravity s b) }
    pinFirst (update s1 j) b.id

/-- The physics pass of `draw`, with JavaScript `for (const body of bodies)`
iteration semantics: the iterator advances an index against the current
array, so splicing the current element skips its successor.  The fuel bound
`s.bodies.length` is exact since the loop runs at most once per initial
element (bodies are never added during a tick). -/
def drawLoop : Nat → Nat → Sim → Sim
  | 0, _, s => s
  | f + 1, j, s =>
    if j < s.bodies.length then drawLoop f (j + 1) (processBody s j) else s

/-- One full tick: the first loop of `draw` (the rendering loops mutate no
physics state and are omitted). -/
def draw (s : Sim) : Sim := drawLoop s.bodies.length 0 s

/-- `n` consecutive ticks. -/
def drawN : Nat → Sim → Sim
  | 0, s => s
  | n + 1, s => drawN n (draw s)

/-- External mass edit through the configuration menu
(`bodies[0].mass = Number(e.target.value)` in `inputHandler`), generalised
to any index. -/
def setMass (s : Sim) (j : Nat) (m : JF) : Sim :=
  match s.bodies[j]? with
  | none => s
  | some b => { s with bodies := s.bodies.set j { b with mass := m } }

/-- Value equality of vectors (statement tool). -/
def Vec.numEq (v w : Vec) : Bool := v.x.numEq w.x && v.y.numEq w.y

/-- A strictly positive finite number with a well-formed denominator. -/
def JF.posFinB : JF → Bool
  | JF.fin q => decide (0 < q.num) && decide (0 < q.den)
  | _ => false

/-- A finite number with a well-formed denominator. -/
def JF.finWfB : JF → Bool
  | JF.fin q => decide (0 < q.den)
  | _ => false

def Vec.finWfB (v : Vec) : Bool := v.x.finWfB && v.y.finWfB

/-- Builder for concrete test bodies (fields in the order of the
`CelestialBody` constructor; derived fields zero-initialised exactly as
`mkBody` does before `calculateOrbitalParameters` runs). -/
def mkTestBody (i : Nat) (m : QQ) (px py vx vy : QQ) (par : Option Nat)
    (t : Int) : Body :=
  { id := i
    mass := JF.fin m
    position := ⟨JF.fin px, JF.fin py⟩
    velocity := ⟨JF.fin vx, JF.fin vy⟩
    acceleration := Vec.zero
    parent := par
    timeOut := t
    eccentricityVector := Vec.zero
    eccentricity := JF.ofInt 0
    semimajorAxis := JF.ofInt 0
    semiminorAxis := JF.ofInt 0 }

/-! ### General lemmas about the embedded operations -/

theorem mem_set_cases {α : Type} (l : List α) (j : Nat) (v b : α) (hb : b ∈ l) :
    b ∈ l.set j v ∨ l[j]? = some b := by
  induction l generalizing j with
  | nil => cases hb
  | cons x xs ih =>
    cases j with
    | zero =>
      rcases List.mem_cons.mp hb with h | h
      · right; simp [h]
      · left; exact List.mem_cons.mpr (Or.inr h)
    | succ j =>
      rcases List.mem_cons.mp hb with h | h
      · left; exact List.mem_cons.mpr (Or.inl h)
      · rcases ih j h with h2 | h2
        · left; exact List.mem_cons.mpr (Or.inr h2)
        · right; simpa using h2

theorem mem_eraseIdx_of_ne {α : Type} (l : List α) (j : Nat) (b c : α)
    (hb : b ∈ l) (hc : l[j]? = some c) (hne : b ≠ c) : b ∈ l.eraseIdx j := by
  induction l generalizing j with
  | nil => cases hb
  | cons x xs ih =>
    cases j with
    | zero =>
      have hx : x = c := by simpa using hc
      rcases List.mem_cons.mp hb with h | h
      · exact absurd (h.trans hx) hne
      · simpa [List.eraseIdx] using h
    | succ j =>
      rcases List.mem_cons.mp hb with h | h
      · exact List.mem_cons.mpr (Or.inl h)
      · exact List.mem_cons.mpr (Or.inr (ih j h (by simpa using hc)))

/-- `calculateOrbitalParameters` writes only the four derived orbital fields:
the identity is untouched. -/
theorem calc_id (s : Sim) (b : Body) :
    (calculateOrbitalParameters s b).1.id = b.id := by
  rcases hp : b.parent with _ | p
  · simp [calculateOrbitalParameters, hp]
  · rcases hl : lookup s p with _ | pb <;>
      simp [calculateOrbitalParameters, hp, hl]

theorem calc_parent (s : Sim) (b : Body) :
    (calculateOrbitalParameters s b).1.parent = b.parent := by
  rcases hp : b.parent with _ | p
  · simp [calculateOrbitalParameters, hp]
  · rcases hl : lookup s p with _ | pb <;>
      simp [calculateOrbitalParameters, hp, hl]

theorem calc_timeOut (s : Sim) (b : Body) :
    (calculateOrbitalParameters s b).1.timeOut = b.timeOut := by
  rcases hp : b.parent with _ | p
  · simp [calculateOrbitalParameters, hp]
  · rcases hl : lookup s p with _ | pb <;>
      simp [calculateOrbitalParameters, hp, hl]

theorem calc_position (s : Sim) (b : Body) :
    (calculateOrbitalParameters s b).1.position = b.position := by
  rcases hp : b.parent with _ | p
  · simp [calculateOrbitalParameters, hp]
  · rcases hl : lookup s p with _ | pb <;>
      simp [calculateOrbitalParameters, hp, hl]

theorem calc_velocity (s : Sim) (b : Body) :
    (calculateOrbitalParameters s b).1.velocity = b.velocity := by
  rcases hp : b.parent with _ | p
  · simp [calculateOrbitalParameters, hp]
  · rcases hl : lookup s p with _ | pb <;>
      simp [calculateOrbitalParameters, hp, hl]

theorem calc_mass (s : Sim) (b : Body) :
    (calculateOrbitalParameters s b).1.mass = b.mass := by
  rcases hp : b.parent with _ | p
  · simp [calculateOrbitalParameters, hp]
  · rcases hl : lookup s p with _ | pb <;>
      simp [calculateOrbitalParameters, hp, hl]

theorem integrate_id (b : Body) : (integrate b).id = b.id := rfl

theorem integrate_parent (b : Body) : (integrate b).parent = b.parent := rfl

theorem integrate_timeOut (b : Body) : (integrate b).timeOut = b.timeOut := rfl

theorem integrate_mass (b : Body) : (integrate b).mass = b.mass := rfl

/-- `checkOtherBodies` of a body with a parent always commits a parent
(`bestParent` or the original), never `None`. -/
theorem checkOtherBodies_parent_isSome (s : Sim) (b : Body) (e : JF) (p : Nat)
    (hp : b.parent = some p) :
    (checkOtherBodies s b e).parent.isSome = true := by
  unfold checkOtherBodies
  rw [hp]
  by_cases hidx : (s.bodies.findIdx? (fun x => x.id == p)).isNone
  · simp [hidx, hp]
  · simp [hidx]

/-! ### Finiteness of the gravity pass -/

theorem add_fin_isFinite (a b : JF) (ha : a.isFiniteB = true)
    (hb : b.isFiniteB = true) : (a.add b).isFiniteB = true := by
  cases a <;> cases b <;> simp_all [JF.isFiniteB, JF.add]

theorem scale_fin_fin (a b w : QQ) :
    Vec.scale ⟨JF.fin a, JF.fin b⟩ (JF.fin w) =
      ⟨JF.fin (a.mul w), JF.fin (b.mul w)⟩ := by
  simp [Vec.scale, JF.isFiniteB, JF.mul]

theorem sub_fin_fin (a b c d : QQ) :
    Vec.sub ⟨JF.fin a, JF.fin b⟩ ⟨JF.fin c, JF.fin d⟩ =
      ⟨JF.fin (a.add c.neg), JF.fin (b.add d.neg)⟩ := rfl

theorem posFinB_elim (a : JF) (h : a.posFinB = true) :
    ∃ q : QQ, a = JF.fin q ∧ 0 < q.num ∧ 0 < q.den := by
  cases a with
  | fin q => exact ⟨q, rfl, by simpa [JF.posFinB] using h⟩
  | pinf => simp [JF.posFinB] at h
  | ninf => simp [JF.posFinB] at h
  | nan => simp [JF.posFinB] at h

theorem finWfB_elim (a : JF) (h : a.finWfB = true) :
    ∃ q : QQ, a = JF.fin q ∧ 0 < q.den := by
  cases a with
  | fin q => exact ⟨q, rfl, by simpa [JF.finWfB] using h⟩
  | pinf => simp [JF.finWfB] at h
  | ninf => simp [JF.finWfB] at h
  | nan => simp [JF.finWfB] at h

/-- One pairwise term of the gravity pass, over finite well-formed inputs:
`d.setMag((G*m₁*m₂ / |d|²) / m₁)` always has finite components.  In the
coincident case (`|d|² == 0`) the division yields `Infinity`, but
`setMag`'s `normalize` keeps the zero vector (`len !== 0` guard) and p5's
`mult` rejects the non-finite scalar, so the term is the zero vector in
value. -/
theorem setMag_gravContrib_core (msq moq dxq dyq : QQ)
    (hms : 0 < msq.num) (hmo : 0 < moq.num)
    (hdx : 0 < dxq.den) (hdy : 0 < dyq.den) :
    ((Vec.setMag ⟨JF.fin dxq, JF.fin dyq⟩
        ((((GRAVITY.mul (JF.fin msq)).mul (JF.fin moq)).div
          (Vec.magSq ⟨JF.fin dxq, JF.fin dyq⟩)).div (JF.fin msq))).x.isFiniteB = true ∧
      (Vec.setMag ⟨JF.fin dxq, JF.fin dyq⟩
        ((((GRAVITY.mul (JF.fin msq)).mul (JF.fin moq)).div
          (Vec.magSq ⟨JF.fin dxq, JF.fin dyq⟩)).div (JF.fin msq))).y.isFiniteB = true) ∧
    ((Vec.magSq ⟨JF.fin dxq, JF.fin dyq⟩).eqZeroB = true →
      Vec.numEq (Vec.setMag ⟨JF.fin dxq, JF.fin dyq⟩
        ((((GRAVITY.mul (JF.fin msq)).mul (JF.fin moq)).div
          (Vec.magSq ⟨JF.fin dxq, JF.fin dyq⟩)).div (JF.fin msq))) Vec.zero = true) := by
  have hmag : Vec.magSq ⟨JF.fin dxq, JF.fin dyq⟩ =
      JF.fin ((dxq.mul dxq).add (dyq.mul dyq)) := rfl
  have hP : (GRAVITY.mul (JF.fin msq)).mul (JF.fin moq) =
      JF.fin (((⟨1, 10⟩ : QQ).mul msq).mul moq) := rfl
  have hPnum : 0 < (((⟨1, 10⟩ : QQ).mul msq).mul moq).num := by
    show 0 < 1 * msq.num * moq.num
    rw [one_mul]; exact mul_pos hms hmo
  have hrqnum : ((dxq.mul dxq).add (dyq.mul dyq)).num =
      dxq.num * dxq.num * ((dyq.den * dyq.den : Nat) : Int) +
        dyq.num * dyq.num * ((dxq.den * dxq.den : Nat) : Int) := rfl
  have hrqden : ((dxq.mul dxq).add (dyq.mul dyq)).den =
      dxq.den * dxq.den * (dyq.den * dyq.den) := rfl
  have hd2 : (0 : Int) < ((dyq.den * dyq.den : Nat) : Int) := by
    exact_mod_cast Nat.mul_pos hdy hdy
  have hd1 : (0 : Int) < ((dxq.den * dxq.den : Nat) : Int) := by
    exact_mod_cast Nat.mul_pos hdx hdx
  have hA : 0 ≤ dxq.num * dxq.num * ((dyq.den * dyq.den : Nat) : Int) :=
    mul_nonneg (mul_self_nonneg _) hd2.le
  have hB : 0 ≤ dyq.num * dyq.num * ((dxq.den * dxq.den : Nat) : Int) :=
    mul_nonneg (mul_self_nonneg _) hd1.le
  by_cases hz : ((dxq.mul dxq).add (dyq.mul dyq)).isZero = true
  · have h0 : ((dxq.mul dxq).add (dyq.mul dyq)).num = 0 := by
      simpa [QQ.isZero] using hz
    have hA0 : dxq.num * dxq.num * ((dyq.den * dyq.den : Nat) : Int) = 0 := by
      rw [hrqnum] at h0; linarith
    have hB0 : dyq.num * dyq.num * ((dxq.den * dxq.den : Nat) : Int) = 0 := by
      rw [hrqnum] at h0; linarith
    have hx0 : dxq.num = 0 := by
      rcases mul_eq_zero.mp hA0 with h | h
      · exact mul_self_eq_zero.mp h
      · exact absurd h hd2.ne'
    have hy0 : dyq.num = 0 := by
      rcases mul_eq_zero.mp hB0 with h | h
      · exact mul_self_eq_zero.mp h
      · exact absurd h hd1.ne'
    have hPz : (((⟨1, 10⟩ : QQ).mul msq).mul moq).isZero = false := by
      simp only [QQ.isZero, beq_eq_false_iff_ne, ne_eq]
      exact hPnum.ne'
    have hPn : (((⟨1, 10⟩ : QQ).mul msq).mul moq).isNeg = false := by
      simp only [QQ.isNeg, decide_eq_false_iff_not, not_lt]
      exact hPnum.le
    have hforce : (JF.fin (((⟨1, 10⟩ : QQ).mul msq).mul moq)).div
        (JF.fin ((dxq.mul dxq).add (dyq.mul dyq))) = JF.pinf := by
      simp [JF.div, hz, hPz, hPn]
    have hmsn : msq.isNeg = false := by
      simp only [QQ.isNeg, decide_eq_false_iff_not, not_lt]
      exact hms.le
    have hn : JF.pinf.div (JF.fin msq) = JF.pinf := by
      simp [JF.div, hmsn]
    have hrqneg : ((dxq.mul dxq).add (dyq.mul dyq)).isNeg = false := by
      simp [QQ.isNeg, h0]
    have h00 : natSqrt 0 = 0 := by simpa using natSqrt_sq 0
    have hlen0 : (JF.fin ((dxq.mul dxq).add (dyq.mul dyq))).sqrt.eqZeroB = true := by
      simp [JF.sqrt, hrqneg, JF.eqZeroB, QQ.sqrtQ, QQ.isZero, h0, h00]
    have hnorm : Vec.normalize ⟨JF.fin dxq, JF.fin dyq⟩ = ⟨JF.fin dxq, JF.fin dyq⟩ := by
      simp only [Vec.normalize, Vec.mag, hmag, hlen0, if_true]
    have hval : Vec.setMag ⟨JF.fin dxq, JF.fin dyq⟩
        ((((GRAVITY.mul (JF.fin msq)).mul (JF.fin moq)).div
          (Vec.magSq ⟨JF.fin dxq, JF.fin dyq⟩)).div (JF.fin msq)) =
        ⟨JF.fin dxq, JF.fin dyq⟩ := by
      rw [hP, hmag, hforce, hn]
      simp [Vec.setMag, hnorm, Vec.scale, JF.isFiniteB]
    refine ⟨⟨by rw [hval]; rfl, by rw [hval]; rfl⟩, fun _ => ?_⟩
    rw [hval]
    simp [Vec.numEq, JF.numEq, QQ.beq, Vec.zero, JF.ofInt, QQ.ofInt, hx0, hy0]
  · have h0' : ((dxq.mul dxq).add (dyq.mul dyq)).num ≠ 0 := by
      simpa [QQ.isZero] using hz
    have hrqnn : (0 : Int) ≤ ((dxq.mul dxq).add (dyq.mul dyq)).num := by
      rw [hrqnum]; exact add_nonneg hA hB
    have hrqpos : 0 < ((dxq.mul dxq).add (dyq.mul dyq)).num :=
      lt_of_le_of_ne hrqnn (Ne.symm h0')
    have hrqden2 : 0 < ((dxq.mul dxq).add (dyq.mul dyq)).den := by
      rw [hrqden]; exact Nat.mul_pos (Nat.mul_pos hdx hdx) (Nat.mul_pos hdy hdy)
    have hmz : msq.isZero = false := by
      simp only [QQ.isZero, beq_eq_false_iff_ne, ne_eq]
      exact hms.ne'
    have hforce : (JF.fin (((⟨1, 10⟩ : QQ).mul msq).mul moq)).div
        (JF.fin ((dxq.mul dxq).add (dyq.mul dyq))) =
        JF.fin ((((⟨1, 10⟩ : QQ).mul msq).mul moq).div
          ((dxq.mul dxq).add (dyq.mul dyq))) := by
      simp [JF.div, hz]
    have hn : (JF.fin ((((⟨1, 10⟩ : QQ).mul msq).mul moq).div
        ((dxq.mul dxq).add (dyq.mul dyq)))).div (JF.fin msq) =
        JF.fin (((((⟨1, 10⟩ : QQ).mul msq).mul moq).div
          ((dxq.mul dxq).add (dyq.mul dyq))).div msq) := by
      simp [JF.div, hmz]
    have hrqneg : ((dxq.mul dxq).add (dyq.mul dyq)).isNeg = false := by
      simp only [QQ.isNeg, decide_eq_false_iff_not, not_lt]
      exact hrqpos.le
    have hk : 1 ≤ natSqrt ((((dxq.mul dxq).add (dyq.mul dyq)).num.toNat) *
        ((dxq.mul dxq).add (dyq.mul dyq)).den) := by
      refine natSqrt_pos _ ?_
      exact Nat.one_le_iff_ne_zero.mpr (Nat.mul_ne_zero (by omega) (by omega))
    have hlenz : (((dxq.mul dxq).add (dyq.mul dyq)).sqrtQ).isZero = false := by
      simp only [QQ.sqrtQ, QQ.isZero, beq_eq_false_iff_ne, ne_eq]
      omega
    have hlen : (JF.fin ((dxq.mul dxq).add (dyq.mul dyq))).sqrt =
        JF.fin (((dxq.mul dxq).add (dyq.mul dyq)).sqrtQ) := by
      simp [JF.sqrt, hrqneg]
    have hnorm : Vec.normalize ⟨JF.fin dxq, JF.fin dyq⟩ =
        Vec.scale ⟨JF.fin dxq, JF.fin dyq⟩
          ((JF.ofInt 1).div (JF.fin (((dxq.mul dxq).add (dyq.mul dyq)).sqrtQ))) := by
      simp only [Vec.normalize, Vec.mag, hmag, hlen, JF.eqZeroB, hlenz, if_false,
        Bool.false_eq_true]
    have hw : (JF.ofInt 1).div (JF.fin (((dxq.mul dxq).add (dyq.mul dyq)).sqrtQ)) =
        JF.fin ((QQ.ofInt 1).div (((dxq.mul dxq).add (dyq.mul dyq)).sqrtQ)) := by
      simp [JF.ofInt, JF.div, hlenz]
    have hval : Vec.setMag ⟨JF.fin dxq, JF.fin dyq⟩
        ((((GRAVITY.mul (JF.fin msq)).mul (JF.fin moq)).div
          (Vec.magSq ⟨JF.fin dxq, JF.fin dyq⟩)).div (JF.fin msq)) =
        ⟨JF.fin ((dxq.mul ((QQ.ofInt 1).div
            (((dxq.mul dxq).add (dyq.mul dyq)).sqrtQ))).mul
            (((((⟨1, 10⟩ : QQ).mul msq).mul moq).div
              ((dxq.mul dxq).add (dyq.mul dyq))).div msq)),
          JF.fin ((dyq.mul ((QQ.ofInt 1).div
            (((dxq.mul dxq).add (dyq.mul dyq)).sqrtQ))).mul
            (((((⟨1, 10⟩ : QQ).mul msq).mul moq).div
              ((dxq.mul dxq).add (dyq.mul dyq))).div msq))⟩ := by
      rw [hP, hmag, hforce, hn]
      simp only [Vec.setMag]
      rw [hnorm, hw, scale_fin_fin, scale_fin_fin]
    refine ⟨⟨by rw [hval]; rfl, by rw [hval]; rfl⟩, fun hco => ?_⟩
    rw [hmag] at hco
    simp only [JF.eqZeroB] at hco
    exact absurd hco hz

/-- Any pairwise gravity term between bodies with positive finite masses and
finite well-formed positions has finite components; when the squared
separation is zero (coincident pair), the term is the zero vector in
value. -/
theorem gravContrib_fin_zero (self other : Body)
    (hms : self.mass.posFinB = true) (hmo : other.mass.posFinB = true)
    (hps : self.position.finWfB = true) (hpo : other.position.finWfB = true) :
    ((gravContrib self other).x.isFiniteB = true ∧
      (gravContrib self other).y.isFiniteB = true) ∧
    ((Vec.magSq (Vec.sub other.position self.position)).eqZeroB = true →
      Vec.numEq (gravContrib self other) Vec.zero = true) := by
  obtain ⟨msq, hm1, hms1, hms2⟩ := posFinB_elim _ hms
  obtain ⟨moq, hm2, hmo1, hmo2⟩ := posFinB_elim _ hmo
  simp only [Vec.finWfB, Bool.and_eq_true] at hps hpo
  obtain ⟨sxq, hsx, hsxd⟩ := finWfB_elim _ hps.1
  obtain ⟨syq, hsy, hsyd⟩ := finWfB_elim _ hps.2
  obtain ⟨oxq, hox, hoxd⟩ := finWfB_elim _ hpo.1
  obtain ⟨oyq, hoy, hoyd⟩ := finWfB_elim _ hpo.2
  have hsp : self.position = ⟨JF.fin sxq, JF.fin syq⟩ := by rw [← hsx, ← hsy]
  have hop : other.position = ⟨JF.fin oxq, JF.fin oyq⟩ := by rw [← hox, ← hoy]
  simp only [gravContrib]
  rw [hop, hsp, hm1, hm2, sub_fin_fin]
  exact setMag_gravContrib_core msq moq (oxq.add sxq.neg) (oyq.add syq.neg)
    hms1 hmo1 (Nat.mul_pos hoxd hsxd) (Nat.mul_pos hoyd hsyd)

/-- The acceleration accumulated by `applyGravity` keeps finite components
when every body involved has a positive finite mass and a finite
well-formed position. -/
theorem applyGravity_acc_fin (s : Sim) (self : Body)
    (hms : self.mass.posFinB = true) (hps : self.position.finWfB = true)
    (hall : ∀ o ∈ s.bodies, o.mass.posFinB = true ∧ o.position.finWfB = true) :
    (applyGravity s self).acceleration.x.isFiniteB = true ∧
    (applyGravity s self).acceleration.y.isFiniteB = true := by
  have main : ∀ (l : List Body) (acc : Vec),
      (∀ o ∈ l, o.mass.posFinB = true ∧ o.position.finWfB = true) →
      acc.x.isFiniteB = true → acc.y.isFiniteB = true →
      (l.foldl (fun acc other =>
        if other.id == self.id then acc else Vec.add acc (gravContrib self other))
        acc).x.isFiniteB = true ∧
      (l.foldl (fun acc other =>
        if other.id == self.id then acc else Vec.add acc (gravContrib self other))
        acc).y.isFiniteB = true := by
    intro l
    induction l with
    | nil => intro acc _ h1 h2; exact ⟨h1, h2⟩
    | cons hd tl ih =>
      intro acc hl h1 h2
      simp only [List.foldl_cons]
      by_cases hid : (hd.id == self.id) = true
      · rw [if_pos hid]
        exact ih acc (fun o ho => hl o (List.mem_cons_of_mem _ ho)) h1 h2
      · rw [if_neg hid]
        obtain ⟨hfx, hfy⟩ :=
          (gravContrib_fin_zero self hd hms (hl hd (List.mem_cons_self hd tl)).1
            hps (hl hd (List.mem_cons_self hd tl)).2).1
        exact ih _ (fun o ho => hl o (List.mem_cons_of_mem _ ho))
          (add_fin_isFinite _ _ h1 hfx) (add_fin_isFinite _ _ h2 hfy)
  have hacc : (applyGravity s self).acceleration =
      s.bodies.foldl (fun acc other =>
        if other.id == self.id then acc else Vec.add acc (gravContrib self other))
        Vec.zero := rfl
  rw [hacc]
  exact main s.bodies Vec.zero hall rfl rfl

/-! ### Exact evaluation lemmas for division and square roots -/

theorem JF.div_fin (p q : QQ) (hq : q.isZero = false) :
    (JF.fin p).div (JF.fin q) = JF.fin (p.div q) := by
  simp [JF.div, hq]

theorem JF.sqrt_fin (p : QQ) (hp : p.isNeg = false) :
    (JF.fin p).sqrt = JF.fin p.sqrtQ := by
  simp [JF.sqrt, hp]

theorem sqrtQ_perfect (p : QQ) (k : Nat) (h : p.num.toNat * p.den = k * k) :
    p.sqrtQ = ⟨(k : Int), p.den⟩ := by
  unfold QQ.sqrtQ
  rw [h, natSqrt_sq]

/-- Exact magnitude of a vector whose y component is a zero-numerator
fraction: every square root taken is a square root of a perfect square. -/
theorem mag_y_zero (vx : QQ) (dy : Nat) :
    Vec.mag ⟨JF.fin vx, JF.fin ⟨0, dy⟩⟩ =
      JF.fin ⟨((vx.num.natAbs * vx.den * (dy * dy) : Nat) : Int),
        vx.den * vx.den * (dy * dy)⟩ := by
  have habs : vx.num * vx.num = ((vx.num.natAbs * vx.num.natAbs : Nat) : Int) := by
    push_cast
    rw [abs_mul_abs_self]
  have hmagSq : Vec.magSq ⟨JF.fin vx, JF.fin ⟨0, dy⟩⟩ =
      JF.fin ⟨vx.num * vx.num * ((dy * dy : Nat) : Int),
        vx.den * vx.den * (dy * dy)⟩ := by
    simp only [Vec.magSq, JF.mul, JF.add, QQ.mul, QQ.add, JF.fin.injEq, QQ.mk.injEq]
    refine ⟨by push_cast; ring_nf, by ring_nf⟩
  have hneg : (⟨vx.num * vx.num * ((dy * dy : Nat) : Int),
      vx.den * vx.den * (dy * dy)⟩ : QQ).isNeg = false := by
    simp only [QQ.isNeg, decide_eq_false_iff_not, not_lt]
    exact mul_nonneg (mul_self_nonneg _) (Int.natCast_nonneg _)
  have htn : (vx.num * vx.num * ((dy * dy : Nat) : Int)).toNat =
      vx.num.natAbs * vx.num.natAbs * (dy * dy) := by
    rw [habs, ← Nat.cast_mul, Int.toNat_natCast]
  have hsq : (⟨vx.num * vx.num * ((dy * dy : Nat) : Int),
      vx.den * vx.den * (dy * dy)⟩ : QQ).sqrtQ =
      ⟨((vx.num.natAbs * vx.den * (dy * dy) : Nat) : Int),
        vx.den * vx.den * (dy * dy)⟩ := by
    apply sqrtQ_perfect
    show (vx.num * vx.num * ((dy * dy : Nat) : Int)).toNat *
      (vx.den * vx.den * (dy * dy)) = _
    rw [htn]; ring
  unfold Vec.mag
  rw [hmagSq, JF.sqrt_fin _ hneg, hsq]

/-- Exact magnitude of a vector whose x component is a zero-numerator
fraction. -/
theorem mag_x_zero (vy : QQ) (dx : Nat) :
    Vec.mag ⟨JF.fin ⟨0, dx⟩, JF.fin vy⟩ =
      JF.fin ⟨((vy.num.natAbs * (dx * dx) * vy.den : Nat) : Int),
        dx * dx * (vy.den * vy.den)⟩ := by
  have habs : vy.num * vy.num = ((vy.num.natAbs * vy.num.natAbs : Nat) : Int) := by
    push_cast
    rw [abs_mul_abs_self]
  have hmagSq : Vec.magSq ⟨JF.fin ⟨0, dx⟩, JF.fin vy⟩ =
      JF.fin ⟨vy.num * vy.num * ((dx * dx : Nat) : Int),
        dx * dx * (vy.den * vy.den)⟩ := by
    simp only [Vec.magSq, JF.mul, JF.add, QQ.mul, QQ.add, JF.fin.injEq, QQ.mk.injEq]
    refine ⟨by push_cast; ring_nf, by ring_nf⟩
  have hneg : (⟨vy.num * vy.num * ((dx * dx : Nat) : Int),
      dx * dx * (vy.den * vy.den)⟩ : QQ).isNeg = false := by
    simp only [QQ.isNeg, decide_eq_false_iff_not, not_lt]
    exact mul_nonneg (mul_self_nonneg _) (Int.natCast_nonneg _)
  have htn : (vy.num * vy.num * ((dx * dx : Nat) : Int)).toNat =
      vy.num.natAbs * vy.num.natAbs * (dx * dx) := by
    rw [habs, ← Nat.cast_mul, Int.toNat_natCast]
  have hsq : (⟨vy.num * vy.num * ((dx * dx : Nat) : Int),
      dx * dx * (vy.den * vy.den)⟩ : QQ).sqrtQ =
      ⟨((vy.num.natAbs * (dx * dx) * vy.den : Nat) : Int),
        dx * dx * (vy.den * vy.den)⟩ := by
    apply sqrtQ_perfect
    show (vy.num * vy.num * ((dx * dx : Nat) : Int)).toNat *
      (dx * dx * (vy.den * vy.den)) = _
    rw [htn]; ring
  unfold Vec.mag
  rw [hmagSq, JF.sqrt_fin _ hneg, hsq]

/-- `addSatellite` with a positive mass: the created satellite is the
constructed body (with the vis-viva velocity vector) run through
`calculateOrbitalParameters`, appended to the body array. -/
theorem addSatellite_ok (s : Sim) (self : Body) (mass : JF) (pos : Vec)
    (e : JF) (sign : Bool) (hm : mass.leb (JF.ofInt 0) = false)
    (vv : Vec)
    (hvv : vv = Vec.setMag
      (Vec.rotateQuarter (Vec.sub pos self.position) sign)
      (JF.sqrt ((gravitationalParameter s self).mul
        (((JF.ofInt 2).div (Vec.dist pos self.position)).sub
          ((JF.ofInt 1).div ((Vec.dist pos self.position).div
            ((JF.ofInt 1).add e))))))) :
    addSatellite s self mass pos e sign =
      Except.ok { s with
        bodies := s.bodies ++ [(calculateOrbitalParameters s
          { id := s.nextId, mass := mass,
            position := ⟨self.position.x.add pos.x, self.position.y.add pos.y⟩,
            velocity := ⟨vv.x, vv.y⟩, acceleration := Vec.zero,
            parent := some self.id, timeOut := 100,
            eccentricityVector := Vec.zero, eccentricity := JF.ofInt 0,
            semimajorAxis := JF.ofInt 0, semiminorAxis := JF.ofInt 0 }).1],
        nextId := s.nextId + 1 } := by
  subst hvv
  simp [addSatellite, mkBody, hm]

/-! ### Concrete simulation states used by the claim theorems

All concrete states are chosen to be collinear or Pythagorean so that every
square root taken during their evaluation is a square root of a perfect
rational square, where the model computes exactly the same value as
double-precision JavaScript. -/

/-- Central body for the order-dependence scenario: mass 100 at the origin. -/
def bodyS : Body := mkTestBody 0 ⟨100, 1⟩ ⟨0, 1⟩ ⟨0, 1⟩ ⟨0, 1⟩ ⟨0, 1⟩ none 100

/-- Primary at x = 3, mass 10, at rest. -/
def bodyA : Body := mkTestBody 1 ⟨10, 1⟩ ⟨3, 1⟩ ⟨0, 1⟩ ⟨0, 1⟩ ⟨0, 1⟩ none 100

/-- Primary at x = 7, mass 10, at rest. -/
def bodyB : Body := mkTestBody 2 ⟨10, 1⟩ ⟨7, 1⟩ ⟨0, 1⟩ ⟨0, 1⟩ ⟨0, 1⟩ none 100

/-- The same three bodies in two different array orders. -/
def simOrderA : Sim :=
  { bodies := [bodyS, bodyA, bodyB], removed := [], nextId := 3,
    width := ⟨200, 1⟩, height := ⟨200, 1⟩ }

def simOrderB : Sim :=
  { bodies := [bodyS, bodyB, bodyA], removed := [], nextId := 3,
    width := ⟨200, 1⟩, height := ⟨200, 1⟩ }

/-- Position of the body with id 1 after one tick of a state. -/
def posOfOne (s : Sim) : Vec :=
  (((draw s).bodies.find? (fun b => b.id == 1)).map Body.position).getD Vec.zero

/-- Star of mass 50 with a satellite of mass 5 at distance 5, at rest
(relative state with zero velocity has eccentricity exactly 1), escape timer
at 37. -/
def parabolicSim : Sim :=
  { bodies := [mkTestBody 0 ⟨50, 1⟩ ⟨0, 1⟩ ⟨0, 1⟩ ⟨0, 1⟩ ⟨0, 1⟩ none 100,
               mkTestBody 1 ⟨5, 1⟩ ⟨5, 1⟩ ⟨0, 1⟩ ⟨0, 1⟩ ⟨0, 1⟩ (some 0) 37],
    removed := [], nextId := 2, width := ⟨200, 1⟩, height := ⟨200, 1⟩ }

/-- Satellite on a hyperbolic trajectory: mass 10 at (15, 0) with velocity
(0, 4) around a star of mass 790 (mu = 80): eccentricity exactly 2. -/
def hyperSat : Body :=
  mkTestBody 1 ⟨10, 1⟩ ⟨15, 1⟩ ⟨0, 1⟩ ⟨0, 1⟩ ⟨4, 1⟩ (some 0) 100

def hyperSim : Sim :=
  { bodies := [mkTestBody 0 ⟨790, 1⟩ ⟨0, 1⟩ ⟨0, 1⟩ ⟨0, 1⟩ ⟨0, 1⟩ none 100,
               hyperSat],
    removed := [], nextId := 2, width := ⟨200, 1⟩, height := ⟨200, 1⟩ }

/-- Satellite that integrates to the bound state (3,4), velocity (0,4), around
a star of mass 790 (mu = 80): post-integration eccentricity exactly 4/5 < 1,
with the escape timer at 50 (not the full budget). -/
def boundSim : Sim :=
  { bodies := [mkTestBody 0 ⟨790, 1⟩ ⟨0, 1⟩ ⟨0, 1⟩ ⟨0, 1⟩ ⟨0, 1⟩ none 100,
               mkTestBody 1 ⟨10, 1⟩ ⟨3, 1⟩ ⟨0, 1⟩ ⟨0, 1⟩ ⟨4, 1⟩ (some 0) 50],
    removed := [], nextId := 2, width := ⟨200, 1⟩, height := ⟨200, 1⟩ }

/-- Star (id 0), an escaping satellite G1 (id 1, parent 0, timer 1, mass 2/3,
about to integrate to (3,4) with velocity (-4,3): eccentricity exactly 2
under mu = 125/3), and a far light body R (id 2) whose parent is G1.  The
canvas is 4 x 4 so G1's position exceeds the half-extent on both axes. -/
def orphanSim : Sim :=
  { bodies := [mkTestBody 0 ⟨416, 1⟩ ⟨0, 1⟩ ⟨0, 1⟩ ⟨0, 1⟩ ⟨0, 1⟩ none 100,
               mkTestBody 1 ⟨2, 3⟩ ⟨7, 1⟩ ⟨1, 1⟩ ⟨-4, 1⟩ ⟨3, 1⟩ (some 0) 1,
               mkTestBody 2 ⟨1, 1000⟩ ⟨1000, 1⟩ ⟨1000, 1⟩ ⟨0, 1⟩ ⟨0, 1⟩
                 (some 1) 100],
    removed := [], nextId := 3, width := ⟨4, 1⟩, height := ⟨4, 1⟩ }

set_option maxRecDepth 100000

/-! ### Claim theorems -/

/-- C1: the claim states that every tick accumulates acceleration for all
bodies from tick-start positions in one full pass and only then integrates,
so the resulting state does not depend on the iteration order over bodies.
The code instead interleaves `applyGravity` and `update` in a single loop
(`draw`), so a later body's acceleration is computed from earlier bodies'
already-integrated positions: running one tick over the same three bodies in
two different array orders moves body 1 to two different positions. -/
theorem C1_order_dependence :
    ((draw simOrderA).bodies.find? (fun b => b.id == 1)).isSome = true ∧
    ((draw simOrderB).bodies.find? (fun b => b.id == 1)).isSome = true ∧
    Vec.numEq (posOfOne simOrderA) (posOfOne simOrderB) = false := by
  decide

/-- C3 counterexample: the update of the escaping satellite G1 (id 1)
removes it from the active array while body R (id 2) remains with
`parent = 1`: after this removal a remaining body's reference denotes a body
that is NOT present in the active set. -/
theorem C3_counterexample_dangling_parent :
    ((Gravity.update orphanSim 1).bodies.map Body.id = [0, 2]) ∧
    ((Gravity.update orphanSim 1).bodies[1]?.map Body.parent =
      some (some 1)) ∧
    (∀ x ∈ (Gravity.update orphanSim 1).bodies, x.id ≠ 1) := by
  decide

/-- Every member of a list survives removal of index `j`, or it was the
element at index `j`. -/
theorem mem_eraseIdx_or {α : Type} (l : List α) (j : Nat) (b : α)
    (hb : b ∈ l) : b ∈ l.eraseIdx j ∨ l[j]? = some b := by
  induction l generalizing j with
  | nil => cases hb
  | cons x xs ih =>
    cases j with
    | zero =>
      rcases List.mem_cons.mp hb with h | h
      · right; simp [h]
      · left; simpa [List.eraseIdx] using h
    | succ j =>
      rcases List.mem_cons.mp hb with h | h
      · left
        show b ∈ x :: xs.eraseIdx j
        exact List.mem_cons.mpr (Or.inl h)
      · rcases ih j h with h2 | h2
        · left
          show b ∈ x :: xs.eraseIdx j
          exact List.mem_cons.mpr (Or.inr h2)
        · right; simpa using h2

/-- C3 amended: removal never invalidates a reference as an object handle.
`checkOrbitAndRemove` (the only remover) moves the spliced body into the
still-reachable `removed` pool, so every body id resolvable before is
resolvable after (a parent object reference keeps denoting the same body,
as `checkOtherBodies` relies on when it detects an inactive original parent
and returns early); and removal touches no other body: every body active
afterwards is either an untouched original or the processed body at index
`j` (same id).  What fails is only the claim's stronger reading that the
referenced body is still in the ACTIVE set: the counterexample shows a
remaining body whose reference denotes a removed body. -/
theorem C3_amended_handles_stay_valid (s : Sim) (j : Nat) (i : Nat) :
    ((lookup s i).isSome = true →
      (lookup (checkOrbitAndRemove s j) i).isSome = true) ∧
    (∀ b2 ∈ (checkOrbitAndRemove s j).bodies, b2 ∈ s.bodies ∨
      ∃ b, s.bodies[j]? = some b ∧ b2.id = b.id) := by
  cases hb : s.bodies[j]? with
  | none =>
    have hclean : checkOrbitAndRemove s j = s := by
      simp only [checkOrbitAndRemove, hb]
    rw [hclean]
    exact ⟨fun h => h, fun b2 hb2 => Or.inl hb2⟩
  | some b =>
    have hlen : j < s.bodies.length := (List.getElem?_eq_some_iff.mp hb).1
    have hid1 : ({ (calculateOrbitalParameters s b).1 with
        timeOut := (calculateOrbitalParameters s b).1.timeOut - 1 } : Body).id
        = b.id := calc_id s b
    have hid2 : ({ (calculateOrbitalParameters s b).1 with
        timeOut := (100 : Int) } : Body).id = b.id := calc_id s b
    have hmain : ∀ s2 : Sim,
        (s2.bodies = s.bodies.eraseIdx j ∧
          ∃ b2, s2.removed = s.removed ++ [b2] ∧ b2.id = b.id) ∨
        (∃ v : Body, v.id = b.id ∧ s2.bodies = s.bodies.set j v ∧
          s2.removed = s.removed) →
        ((lookup s i).isSome = true → (lookup s2 i).isSome = true) ∧
        (∀ b2 ∈ s2.bodies, b2 ∈ s.bodies ∨
          ∃ b3, s.bodies[j]? = some b3 ∧ b2.id = b3.id) := by
      rintro s2 (⟨hbo, b2, hrm, hb2⟩ | ⟨v, hv, hbo, hrm⟩)
      · constructor
        · intro h
          simp only [lookup] at h ⊢
          rw [List.find?_isSome] at h ⊢
          obtain ⟨x, hx, hxi⟩ := h
          rcases List.mem_append.mp hx with hx1 | hx1
          · rcases mem_eraseIdx_or s.bodies j x hx1 with h2 | h2
            · exact ⟨x, List.mem_append.mpr (Or.inl (hbo ▸ h2)), hxi⟩
            · have hxb : x = b := by rw [h2] at hb; injection hb
              refine ⟨b2, List.mem_append.mpr (Or.inr ?_), ?_⟩
              · rw [hrm]; simp
              · rwa [hb2, ← hxb]
          · exact ⟨x, List.mem_append.mpr (Or.inr (by rw [hrm]; simp [hx1])),
              hxi⟩
        · intro x hx
          rw [hbo] at hx
          exact Or.inl (List.eraseIdx_subset s.bodies j hx)
      · constructor
        · intro h
          simp only [lookup] at h ⊢
          rw [List.find?_isSome] at h ⊢
          obtain ⟨x, hx, hxi⟩ := h
          rcases List.mem_append.mp hx with hx1 | hx1
          · rcases mem_set_cases s.bodies j v x hx1 with h2 | h2
            · exact ⟨x, List.mem_append.mpr (Or.inl (hbo ▸ h2)), hxi⟩
            · have hxb : x = b := by rw [h2] at hb; injection hb
              refine ⟨v, List.mem_append.mpr (Or.inl ?_), ?_⟩
              · rw [hbo]; exact List.mem_set s.bodies j hlen v
              · rw [hv, ← hxb]; exact hxi
          · exact ⟨x, List.mem_append.mpr (Or.inr (hrm ▸ hx1)), hxi⟩
        · intro x hx
          rw [hbo] at hx
          rcases List.mem_or_eq_of_mem_set hx with h2 | h2
          · exact Or.inl h2
          · exact Or.inr ⟨b, hb, by rw [h2, hv]⟩
    rw [← hb]
    refine hmain (checkOrbitAndRemove s j) ?_
    simp only [checkOrbitAndRemove, hb]
    by_cases hge : (calculateOrbitalParameters s b).2.geb (JF.ofInt 1) = true
    · rw [if_pos hge]
      by_cases hc : (decide (({ (calculateOrbitalParameters s b).1 with
          timeOut := (calculateOrbitalParameters s b).1.timeOut - 1 } :
            Body).timeOut ≤ (0 : Int)) &&
          ({ (calculateOrbitalParameters s b).1 with
            timeOut := (calculateOrbitalParameters s b).1.timeOut - 1 } :
              Body).position.x.abs.gtb (centerX s) &&
          ({ (calculateOrbitalParameters s b).1 with
            timeOut := (calculateOrbitalParameters s b).1.timeOut - 1 } :
              Body).position.y.abs.gtb (centerY s)) = true
      · rw [if_pos hc]
        exact Or.inl ⟨rfl, _, rfl, hid1⟩
      · rw [if_neg hc]
        exact Or.inr ⟨_, hid1, rfl, rfl⟩
    · rw [if_neg hge]
      exact Or.inr ⟨_, hid2, rfl, rfl⟩

/-- C3 witness for the amended theorem: on the hyperbolic two-body state the
lifecycle step keeps the star's id resolvable. -/
theorem C3_witness :
    (lookup (checkOrbitAndRemove hyperSim 1) 0).isSome = true :=
  (C3_amended_handles_stay_valid hyperSim 1 0).1 (by decide)

/-- C4 counterexample: a body with a parent whose post-integration
eccentricity is exactly 1 (position (5,0), velocity (0,0) relative to its
parent).  The claim says eccentricity >= 1 triggers the re-parenting search
and the lifecycle step, which would decrement the escape timer from 37 to 36
(the recomputed eccentricity 1 is >= 1); the code's gate is the strict
`e > 1 && this.parent`, so nothing is triggered: the timer stays 37. -/
theorem C4_counterexample :
    ((Gravity.update parabolicSim 1).bodies[1]?.map
      (fun b => (b.timeOut, b.parent, b.eccentricity.numEq (JF.ofInt 1)))) =
      some (37, some 0, true) := by
  decide

/-- C5: the claim states `semi_minor_axis = semi_major_axis * sqrt(max(0, 1 -
eccentricity^2))`, never NaN even for eccentricity > 1.  The code computes
`Math.sqrt(1 - e*e)` without the clamp: on a hyperbolic state with
eccentricity exactly 2 the radicand is -3 and the semi-minor axis is NaN. -/
theorem C5_semiminor_nan :
    (calculateOrbitalParameters hyperSim hyperSat).2.numEq (JF.ofInt 2) = true ∧
    Body.semiminorAxis (calculateOrbitalParameters hyperSim hyperSat).1 =
      JF.nan := by
  decide

/-- C7 counterexample: the claim says that whenever eccentricity drops below
1 the escape timer is reset to its full budget (100).  Here the satellite's
post-integration eccentricity is 4/5 < 1, but since the update gate `e > 1`
fails, `checkOrbitAndRemove` (which contains the only reset) never runs and
the timer keeps its depleted value 50. -/
theorem C7_counterexample :
    (JF.fin ⟨4, 5⟩).ltb (JF.ofInt 1) = true ∧
    ((Gravity.update boundSim 1).bodies[1]?.map
      (fun b => (b.timeOut, b.eccentricity.numEq (JF.fin ⟨4, 5⟩)))) =
      some (50, true) := by
  decide

/-- C7 amended: a body is removed only when the escape timer is exhausted
after its decrement AND both position components exceed the viewport
half-extent (a body meeting only part of the conjunction stays, with the
timer decremented); when the recomputed eccentricity is below 1 inside the
lifecycle step the timer is reset to the full budget 100; but the lifecycle
step itself runs only when the post-integration eccentricity is strictly
greater than 1, so a body whose eccentricity drops to 1 or below keeps its
current timer value — the timer is not reset "whenever eccentricity drops
below 1" as the claim states. -/
theorem C7_amended_removal_conjunction (s : Sim) (j : Nat) (b : Body)
    (hb : s.bodies[j]? = some b)
    (r : Body × JF) (hr : r = calculateOrbitalParameters s b) :
    (r.2.geb (JF.ofInt 1) = true →
      (decide (b.timeOut - 1 ≤ (0 : Int)) && b.position.x.abs.gtb (centerX s) &&
        b.position.y.abs.gtb (centerY s)) = false →
      (checkOrbitAndRemove s j).bodies[j]?.map (fun x => (x.id, x.timeOut)) =
        some (b.id, b.timeOut - 1) ∧
      (checkOrbitAndRemove s j).bodies.length = s.bodies.length) ∧
    (r.2.geb (JF.ofInt 1) = true →
      (decide (b.timeOut - 1 ≤ (0 : Int)) && b.position.x.abs.gtb (centerX s) &&
        b.position.y.abs.gtb (centerY s)) = true →
      (checkOrbitAndRemove s j).bodies = s.bodies.eraseIdx j ∧
      ∃ b2, (checkOrbitAndRemove s j).removed = s.removed ++ [b2] ∧
        b2.id = b.id) ∧
    (r.2.geb (JF.ofInt 1) = false →
      (checkOrbitAndRemove s j).bodies[j]?.map (fun x => (x.id, x.timeOut)) =
        some (b.id, (100 : Int)) ∧
      (checkOrbitAndRemove s j).bodies.length = s.bodies.length) ∧
    (∀ r2 : Body × JF,
      r2 = calculateOrbitalParameters
        { s with bodies := s.bodies.set j (integrate b) } (integrate b) →
      ¬(r2.2.gtb (JF.ofInt 1) = true ∧ r2.1.parent.isSome = true) →
      (Gravity.update s j).bodies[j]?.map (fun x => (x.id, x.timeOut)) =
        some (b.id, b.timeOut)) := by
  have hlen : j < s.bodies.length := (List.getElem?_eq_some_iff.mp hb).1
  have hmaster : checkOrbitAndRemove s j =
      if r.2.geb (JF.ofInt 1) = true then
        if (decide (b.timeOut - 1 ≤ (0 : Int)) &&
            b.position.x.abs.gtb (centerX s) &&
            b.position.y.abs.gtb (centerY s)) = true then
          { s with bodies := s.bodies.eraseIdx j,
                   removed :=
                     s.removed ++ [{ r.1 with timeOut := r.1.timeOut - 1 }] }
        else
          { s with
              bodies := (s.bodies.set j { r.1 with timeOut := r.1.timeOut - 1 }) }
      else { s with bodies := (s.bodies.set j { r.1 with timeOut := 100 }) } := by
    subst hr
    simp only [checkOrbitAndRemove, hb]
    simp only [calc_timeOut, calc_position]
  refine ⟨?_, ?_, ?_, ?_⟩
  · intro hge hcond
    rw [hmaster, if_pos hge, if_neg (by rw [hcond]; simp)]
    constructor
    · rw [List.getElem?_set_self (by simpa using hlen)]
      simp [hr, calc_id, calc_timeOut]
    · simp [List.length_set]
  · intro hge hcond
    rw [hmaster, if_pos hge, if_pos hcond]
    exact ⟨rfl, ⟨{ r.1 with timeOut := r.1.timeOut - 1 }, rfl,
      by simp [hr, calc_id]⟩⟩
  · intro hge
    rw [hmaster, if_neg (by simp [hge])]
    constructor
    · rw [List.getElem?_set_self (by simpa using hlen)]
      simp [hr, calc_id]
    · simp [List.length_set]
  · intro r2 hr2 hg
    have hmaster2 : Gravity.update s j =
        { s with bodies := ((s.bodies.set j (integrate b)).set j r2.1) } := by
      subst hr2
      simp only [Gravity.update, hb]
      rw [if_neg hg]
    rw [hmaster2, List.set_set,
      List.getElem?_set_self (by simpa using hlen)]
    simp [hr2, calc_id, calc_timeOut, integrate_id, integrate_timeOut]

/-- C7 witness for the amended theorem: a hyperbolic satellite (eccentricity
2) whose timer is far from exhausted stays with the timer decremented to 99,
and a bound satellite (eccentricity 2/5 at the lifecycle recomputation) gets
the timer reset to 100. -/
theorem C7_witness :
    ((checkOrbitAndRemove hyperSim 1).bodies[1]?.map
       (fun x => (x.id, x.timeOut)) = some (1, (99 : Int)) ∧
     (checkOrbitAndRemove hyperSim 1).bodies.length =
       hyperSim.bodies.length) ∧
    ((checkOrbitAndRemove boundSim 1).bodies[1]?.map
       (fun x => (x.id, x.timeOut)) = some (1, (100 : Int)) ∧
     (checkOrbitAndRemove boundSim 1).bodies.length =
       boundSim.bodies.length) := by
  constructor
  · exact (C7_amended_removal_conjunction hyperSim 1 hyperSat (by decide)
      _ rfl).1 (by decide) (by decide)
  · exact (C7_amended_removal_conjunction boundSim 1
      (mkTestBody 1 ⟨10, 1⟩ ⟨3, 1⟩ ⟨0, 1⟩ ⟨0, 1⟩ ⟨4, 1⟩ (some 0) 50)
      (by decide) _ rfl).2.2.1 (by decide)

/-- A successful constructor call: the built body carries the requested id,
mass and parent (`calculateOrbitalParameters` touches none of them). -/
theorem mkBody_ok (s : Sim) (i : Nat) (m x y vx vy : JF) (par : Option Nat)
    (hm : m.leb (JF.ofInt 0) = false) :
    ∃ b, mkBody s i m x y vx vy par = Except.ok b ∧ b.id = i ∧ b.mass = m ∧
      b.parent = par := by
  refine ⟨(calculateOrbitalParameters s
    { id := i, mass := m, position := ⟨x, y⟩, velocity := ⟨vx, vy⟩,
      acceleration := Vec.zero, parent := par, timeOut := 100,
      eccentricityVector := Vec.zero, eccentricity := JF.ofInt 0,
      semimajorAxis := JF.ofInt 0, semiminorAxis := JF.ofInt 0 }).1,
    ?_, ?_, ?_, ?_⟩
  · simp [mkBody, hm]
  · rw [calc_id]
  · rw [calc_mass]
  · rw [calc_parent]

/-- C4 amended: the re-parenting search and the escape-lifecycle step run
exactly when the body has a reference and the eccentricity recomputed after
integration is strictly greater than 1.  A body with recomputed eccentricity
at most 1 — including exactly 1 — or with NaN eccentricity, or without a
reference, is only integrated and recomputed: its membership, id, reference
and escape timer are unchanged. -/
theorem C4_amended_strict_gate (s : Sim) (j : Nat) (b : Body)
    (hb : s.bodies[j]? = some b)
    (s2 : Sim) (hs2 : s2 = { s with bodies := s.bodies.set j (integrate b) })
    (r : Body × JF) (hr : r = calculateOrbitalParameters s2 (integrate b))
    (s3 : Sim) (hs3 : s3 = { s2 with bodies := s2.bodies.set j r.1 }) :
    (b.parent = none → Gravity.update s j = s3) ∧
    (¬(r.2.gtb (JF.ofInt 1) = true ∧ r.1.parent.isSome = true) →
      Gravity.update s j = s3 ∧
      (Gravity.update s j).bodies[j]?.map
        (fun x => (x.id, x.parent, x.timeOut)) =
          some (b.id, b.parent, b.timeOut) ∧
      (Gravity.update s j).bodies.length = s.bodies.length) ∧
    ((r.2.gtb (JF.ofInt 1) = true ∧ r.1.parent.isSome = true) →
      Gravity.update s j =
        checkOrbitAndRemove
          { s3 with bodies := s3.bodies.set j (checkOtherBodies s3 r.1 r.2) }
          j) := by
  have hlen : j < s.bodies.length := (List.getElem?_eq_some_iff.mp hb).1
  have hmaster : Gravity.update s j =
      if (r.2.gtb (JF.ofInt 1) = true ∧ r.1.parent.isSome = true) then
        checkOrbitAndRemove
          { s3 with bodies := s3.bodies.set j (checkOtherBodies s3 r.1 r.2) } j
      else s3 := by
    subst hs2
    subst hr
    subst hs3
    simp only [Gravity.update, hb]
  refine ⟨?_, ?_, ?_⟩
  · intro hpn
    rw [hmaster, if_neg ?_]
    rintro ⟨-, hps⟩
    rw [hr, calc_parent, integrate_parent, hpn] at hps
    cases hps
  · intro hg
    have hu : Gravity.update s j = s3 := by rw [hmaster, if_neg hg]
    refine ⟨hu, ?_, ?_⟩
    · rw [hu, hs3, hs2, hr, List.set_set,
        List.getElem?_set_self (by simpa using hlen)]
      simp [calc_id, calc_parent, calc_timeOut, integrate_id,
        integrate_parent, integrate_timeOut]
    · rw [hu, hs3, hs2]
      simp [List.length_set]
  · intro hg
    rw [hmaster, if_pos hg]

/-- C4 witness for the amended theorem: a primary body (no reference) is
only integrated. -/
theorem C4_witness :
    Gravity.update parabolicSim 0 =
      { parabolicSim with
          bodies := (parabolicSim.bodies.set 0
              (integrate (mkTestBody 0 ⟨50, 1⟩ ⟨0, 1⟩ ⟨0, 1⟩ ⟨0, 1⟩ ⟨0, 1⟩
                none 100))).set 0
            (calculateOrbitalParameters
              { parabolicSim with
                  bodies := parabolicSim.bodies.set 0
                    (integrate (mkTestBody 0 ⟨50, 1⟩ ⟨0, 1⟩ ⟨0, 1⟩ ⟨0, 1⟩
                      ⟨0, 1⟩ none 100)) }
              (integrate (mkTestBody 0 ⟨50, 1⟩ ⟨0, 1⟩ ⟨0, 1⟩ ⟨0, 1⟩ ⟨0, 1⟩
                none 100))).1 } :=
  (C4_amended_strict_gate parabolicSim 0
    (mkTestBody 0 ⟨50, 1⟩ ⟨0, 1⟩ ⟨0, 1⟩ ⟨0, 1⟩ ⟨0, 1⟩ none 100) (by decide)
    _ rfl _ rfl _ rfl).1 rfl

/-- C8: both body-creation entry points (`new CelestialBody` and
`addSatellite`) reject a mass that is zero or negative with an error and, in
the rejection case, leave the body array untouched (the `bodies.push` of
`addSatellite` sits after the throwing constructor call, and here no `ok`
state is produced at all); with a strictly positive mass both succeed, and
`addSatellite` appends exactly one new body carrying the requested mass and
the reference to `self`. -/
theorem C8_invalid_mass_rejected (s : Sim) (self : Body) (m : JF) (pos : Vec)
    (ecc : JF) (sign : Bool) (i : Nat) (x y vx vy : JF) (par : Option Nat) :
    (m.leb (JF.ofInt 0) = true →
      addSatellite s self m pos ecc sign = Except.error "Mass must be positive" ∧
      mkBody s i m x y vx vy par = Except.error "Mass must be positive") ∧
    (m.leb (JF.ofInt 0) = false →
      (∃ sat, addSatellite s self m pos ecc sign =
          Except.ok { s with bodies := s.bodies ++ [sat], nextId := s.nextId + 1 } ∧
        sat.id = s.nextId ∧ sat.mass = m ∧ sat.parent = some self.id) ∧
      (∃ b, mkBody s i m x y vx vy par = Except.ok b ∧ b.id = i ∧ b.mass = m ∧
        b.parent = par)) := by
  constructor
  · intro hm
    constructor
    · simp [addSatellite, mkBody, hm]
    · simp [mkBody, hm]
  · intro hm
    constructor
    · obtain ⟨sat, hsat, hid, hms, hpar⟩ :=
        mkBody_ok s s.nextId m _ _ _ _ (some self.id) hm
      refine ⟨sat, ?_, hid, hms, hpar⟩
      simp only [addSatellite]
      rw [hsat]
    · exact mkBody_ok s i m x y vx vy par hm

/-- C8 witness: a rejected zero-mass and negative-mass creation, and a
successful positive-mass creation, at concrete inputs. -/
theorem C8_witness :
    (addSatellite parabolicSim bodyS (JF.ofInt 0) Vec.zero (JF.ofInt 0) true =
      Except.error "Mass must be positive") ∧
    (mkBody parabolicSim 5 (JF.ofInt (-3)) (JF.ofInt 1) (JF.ofInt 1)
      (JF.ofInt 0) (JF.ofInt 0) none = Except.error "Mass must be positive") ∧
    (∃ sat, addSatellite parabolicSim bodyS (JF.ofInt 8)
        ⟨JF.ofInt 4, JF.ofInt 0⟩ (JF.ofInt 0) true =
        Except.ok { parabolicSim with
          bodies := parabolicSim.bodies ++ [sat],
          nextId := parabolicSim.nextId + 1 } ∧
      sat.id = parabolicSim.nextId ∧ sat.mass = JF.ofInt 8 ∧
      sat.parent = some bodyS.id) := by
  refine ⟨?_, ?_, ?_⟩
  · exact ((C8_invalid_mass_rejected parabolicSim bodyS (JF.ofInt 0) Vec.zero
      (JF.ofInt 0) true 0 (JF.ofInt 0) (JF.ofInt 0) (JF.ofInt 0) (JF.ofInt 0)
      none).1 (by decide)).1
  · exact ((C8_invalid_mass_rejected parabolicSim bodyS (JF.ofInt (-3)) Vec.zero
      (JF.ofInt 0) true 5 (JF.ofInt 1) (JF.ofInt 1) (JF.ofInt 0) (JF.ofInt 0)
      none).1 (by decide)).2
  · exact ((C8_invalid_mass_rejected parabolicSim bodyS (JF.ofInt 8)
      ⟨JF.ofInt 4, JF.ofInt 0⟩ (JF.ofInt 0) true 0 (JF.ofInt 0) (JF.ofInt 0)
      (JF.ofInt 0) (JF.ofInt 0) none).2 (by decide)).1

/-- The branch structure of `update` at an occupied index, with the
intermediate states named by equations. -/
theorem update_eq (s : Sim) (j : Nat) (b : Body) (hb : s.bodies[j]? = some b)
    (s2 : Sim) (hs2 : s2 = { s with bodies := s.bodies.set j (integrate b) })
    (r : Body × JF) (hr : r = calculateOrbitalParameters s2 (integrate b))
    (s3 : Sim) (hs3 : s3 = { s2 with bodies := s2.bodies.set j r.1 }) :
    Gravity.update s j =
      if (r.2.gtb (JF.ofInt 1) = true ∧ r.1.parent.isSome = true) then
        checkOrbitAndRemove
          { s3 with bodies := s3.bodies.set j (checkOtherBodies s3 r.1 r.2) } j
      else s3 := by
  subst hs2
  subst hr
  subst hs3
  simp only [Gravity.update, hb]

/-- A body with no parent survives `checkOrbitAndRemove` at any index whose
occupant has a parent (the remover only ever touches index `j`). -/
theorem checkOrbit_keeps_primary (s : Sim) (j : Nat) (b : Body)
    (hb : b ∈ s.bodies)
    (hdiff : ∀ c, s.bodies[j]? = some c → c.parent.isSome = true)
    (hpn : b.parent = none) :
    ∃ b2 ∈ (checkOrbitAndRemove s j).bodies, b2.id = b.id ∧
      b2.parent = none := by
  cases hj : s.bodies[j]? with
  | none =>
    have hclean : checkOrbitAndRemove s j = s := by
      simp only [checkOrbitAndRemove, hj]
    exact ⟨b, hclean.symm ▸ hb, rfl, hpn⟩
  | some c =>
    have hc : c.parent.isSome = true := hdiff c hj
    have hbc : b ≠ c := by
      intro hcon
      rw [← hcon, hpn] at hc
      cases hc
    have hmain : ∀ v : Body, (∃ b2 ∈ (s.bodies.set j v : List Body),
        b2.id = b.id ∧ b2.parent = none) := by
      intro v
      rcases mem_set_cases s.bodies j v b hb with h | h
      · exact ⟨b, h, rfl, hpn⟩
      · rw [h] at hj
        injection hj with hj2
        exact absurd hj2 hbc
    simp only [checkOrbitAndRemove, hj]
    by_cases hge : (calculateOrbitalParameters s c).2.geb (JF.ofInt 1) = true
    · rw [if_pos hge]
      by_cases hcnd : (decide (({ (calculateOrbitalParameters s c).1 with
          timeOut := (calculateOrbitalParameters s c).1.timeOut - 1 } :
            Body).timeOut ≤ (0 : Int)) &&
          ({ (calculateOrbitalParameters s c).1 with
            timeOut := (calculateOrbitalParameters s c).1.timeOut - 1 } :
              Body).position.x.abs.gtb (centerX s) &&
          ({ (calculateOrbitalParameters s c).1 with
            timeOut := (calculateOrbitalParameters s c).1.timeOut - 1 } :
              Body).position.y.abs.gtb (centerY s)) = true
      · rw [if_pos hcnd]
        exact ⟨b, mem_eraseIdx_of_ne s.bodies j b c hb hj hbc, rfl, hpn⟩
      · rw [if_neg hcnd]
        exact hmain _
    · rw [if_neg hge]
      exact hmain _

/-- A body with no parent survives `update` at any index, keeping its id and
staying parentless. -/
theorem update_keeps_primary (s : Sim) (j : Nat) (b : Body)
    (hb : b ∈ s.bodies) (hpn : b.parent = none) :
    ∃ b2 ∈ (Gravity.update s j).bodies, b2.id = b.id ∧ b2.parent = none := by
  cases hj : s.bodies[j]? with
  | none =>
    have hclean : Gravity.update s j = s := by
      simp only [Gravity.update, hj]
    exact ⟨b, hclean.symm ▸ hb, rfl, hpn⟩
  | some c =>
    have hlen : j < s.bodies.length := (List.getElem?_eq_some_iff.mp hj).1
    have hmaster := update_eq s j c hj _ rfl _ rfl _ rfl
    set s2 : Sim := { s with bodies := s.bodies.set j (integrate c) } with hs2
    set r : Body × JF := calculateOrbitalParameters s2 (integrate c) with hr
    set s3 : Sim := { s2 with bodies := s2.bodies.set j r.1 } with hs3
    set b4 : Body := checkOtherBodies s3 r.1 r.2 with hb4
    have hs3b : s3.bodies = s.bodies.set j r.1 := by
      rw [hs3, hs2]
      simp [List.set_set]
    rw [hmaster]
    by_cases hgate : (r.2.gtb (JF.ofInt 1) = true ∧ r.1.parent.isSome = true)
    · rw [if_pos hgate]
      have hcp : c.parent.isSome = true := by
        have h2 := hgate.2
        rwa [hr, calc_parent, integrate_parent] at h2
      have hbc : b ≠ c := by
        intro hcon
        rw [← hcon, hpn] at hcp
        cases hcp
      rcases Option.isSome_iff_exists.mp hcp with ⟨p, hp⟩
      refine checkOrbit_keeps_primary _ j b ?_ ?_ hpn
      · show b ∈ s3.bodies.set j b4
        rw [hs3b, List.set_set]
        rcases mem_set_cases s.bodies j b4 b hb with h | h
        · exact h
        · rw [h] at hj
          injection hj with hj2
          exact absurd hj2 hbc
      · intro c2 hc2
        have hc2b : (s3.bodies.set j b4)[j]? = some c2 := hc2
        rw [List.getElem?_set_self
          (by rw [hs3b]; simpa [List.length_set] using hlen)] at hc2b
        injection hc2b with hc2c
        rw [← hc2c, hb4]
        refine checkOtherBodies_parent_isSome s3 r.1 r.2 p ?_
        rw [hr, calc_parent, integrate_parent]
        exact hp
    · rw [if_neg hgate]
      show ∃ b2 ∈ s3.bodies, b2.id = b.id ∧ b2.parent = none
      rw [hs3b]
      rcases mem_set_cases s.bodies j r.1 b hb with h | h
      · exact ⟨b, h, rfl, hpn⟩
      · rw [h] at hj
        injection hj with hj2
        refine ⟨r.1, List.mem_set s.bodies j hlen r.1, ?_, ?_⟩
        · rw [hr, calc_id, integrate_id, ← hj2]
        · rw [hr, calc_parent, integrate_parent, ← hj2]
          exact hpn

/-- The pinning step only changes a position: ids and parents survive. -/
theorem pin_keeps_primary (su : Sim) (cid : Nat) (b3 : Body)
    (hb3 : b3 ∈ su.bodies) (hpn3 : b3.parent = none) :
    ∃ b4 ∈ (pinFirst su cid).bodies, b4.id = b3.id ∧ b4.parent = none := by
  cases hh : su.bodies[0]? with
  | none =>
    have hcl : pinFirst su cid = su := by simp only [pinFirst, hh]
    exact ⟨b3, hcl.symm ▸ hb3, rfl, hpn3⟩
  | some hd =>
    by_cases hide : (hd.id == cid) = true
    · have hcl : pinFirst su cid = { su with
          bodies := (su.bodies.set 0 { hd with position := Vec.zero }) } := by
        simp only [pinFirst, hh]
        rw [if_pos hide]
      rw [hcl]
      show ∃ b4 ∈ su.bodies.set 0 { hd with position := Vec.zero },
        b4.id = b3.id ∧ b4.parent = none
      rcases mem_set_cases su.bodies 0 { hd with position := Vec.zero } b3
          hb3 with h | h
      · exact ⟨b3, h, rfl, hpn3⟩
      · have hlen0 : 0 < su.bodies.length :=
          (List.getElem?_eq_some_iff.mp hh).1
        rw [hh] at h
        injection h with h2
        refine ⟨{ hd with position := Vec.zero },
          List.mem_set su.bodies 0 hlen0 _, ?_, ?_⟩
        · show hd.id = b3.id
          rw [h2]
        · show hd.parent = none
          rw [h2]
          exact hpn3
    · have hcl : pinFirst su cid = su := by
        simp only [pinFirst, hh]
        rw [if_neg (by simpa using hide)]
      exact ⟨b3, hcl.symm ▸ hb3, rfl, hpn3⟩

/-- A body with no parent survives one iteration of the draw loop (pinning
only changes a position). -/
theorem processBody_keeps_primary (s : Sim) (j : Nat) (b : Body)
    (hb : b ∈ s.bodies) (hpn : b.parent = none) :
    ∃ b2 ∈ (processBody s j).bodies, b2.id = b.id ∧ b2.parent = none := by
  cases hj : s.bodies[j]? with
  | none =>
    have hclean : processBody s j = s := by
      simp only [processBody, hj]
    exact ⟨b, hclean.symm ▸ hb, rfl, hpn⟩
  | some c =>
    set s1 : Sim := { s with bodies := s.bodies.set j (applyGravity s c) }
      with hs1
    have hstep1 : ∃ b2 ∈ s1.bodies, b2.id = b.id ∧ b2.parent = none := by
      show ∃ b2 ∈ s.bodies.set j (applyGravity s c), _
      rcases mem_set_cases s.bodies j (applyGravity s c) b hb with h | h
      · exact ⟨b, h, rfl, hpn⟩
      · rw [h] at hj
        injection hj with hj2
        have hlen : j < s.bodies.length := (List.getElem?_eq_some_iff.mp h).1
        have hpc : c.parent = none := hj2 ▸ hpn
        refine ⟨applyGravity s c, List.mem_set s.bodies j hlen _, ?_, ?_⟩
        · show c.id = b.id
          rw [hj2]
        · show c.parent = none
          exact hpc
    obtain ⟨b2, hb2, hid2, hpn2⟩ := hstep1
    obtain ⟨b3, hb3, hid3, hpn3⟩ := update_keeps_primary s1 j b2 hb2 hpn2
    have hpb : processBody s j = pinFirst (Gravity.update s1 j) c.id := by
      simp only [processBody, hj]
    rw [hpb]
    obtain ⟨b4, hb4, hid4, hpn4⟩ :=
      pin_keeps_primary (Gravity.update s1 j) c.id b3 hb3 hpn3
    exact ⟨b4, hb4, by rw [hid4, hid3, hid2], hpn4⟩

/-- A body with no parent survives the whole draw loop. -/
theorem drawLoop_keeps_primary (fuel : Nat) : ∀ (j : Nat) (s : Sim) (b : Body),
    b ∈ s.bodies → b.parent = none →
    ∃ b2 ∈ (drawLoop fuel j s).bodies, b2.id = b.id ∧ b2.parent = none := by
  induction fuel with
  | zero => exact fun j s b hb hpn => ⟨b, hb, rfl, hpn⟩
  | succ f ih =>
    intro j s b hb hpn
    rw [drawLoop]
    by_cases hj : j < s.bodies.length
    · rw [if_pos hj]
      obtain ⟨b2, hb2, hid2, hpn2⟩ := processBody_keeps_primary s j b hb hpn
      obtain ⟨b3, hb3, hid3, hpn3⟩ := ih (j + 1) (processBody s j) b2 hb2 hpn2
      exact ⟨b3, hb3, hid3.trans hid2, hpn3⟩
    · rw [if_neg hj]
      exact ⟨b, hb, rfl, hpn⟩

/-- C10: a body with no reference is never removed by per-tick updates.  The
removal branch sits behind the gate `e > 1 && this.parent`
(`calculateOrbitalParameters` returns 0 for a parentless body, and no step
assigns `parent = null`), other bodies' updates only splice themselves, and
the pinning only moves `bodies[0]`: so after any number of ticks every
primary is still in the active set with its id and no reference — in
particular, once a primary has been added, the active body set is never
empty. -/
theorem C10_primary_persists (n : Nat) (s : Sim) (b : Body)
    (hb : b ∈ s.bodies) (hpn : b.parent = none) :
    ∃ b2 ∈ (drawN n s).bodies, b2.id = b.id ∧ b2.parent = none := by
  induction n generalizing s b with
  | zero => exact ⟨b, hb, rfl, hpn⟩
  | succ n ih =>
    obtain ⟨b2, hb2, hid2, hpn2⟩ :=
      drawLoop_keeps_primary s.bodies.length 0 s b hb hpn
    obtain ⟨b3, hb3, hid3, hpn3⟩ := ih (draw s) b2 hb2 hpn2
    exact ⟨b3, hb3, hid3.trans hid2, hpn3⟩

/-- Star-and-satellite state for the C10 witness. -/
def primSim : Sim :=
  { bodies := [mkTestBody 0 ⟨900, 1⟩ ⟨0, 1⟩ ⟨0, 1⟩ ⟨0, 1⟩ ⟨0, 1⟩ none 100,
               mkTestBody 1 ⟨10, 1⟩ ⟨4, 1⟩ ⟨0, 1⟩ ⟨0, 1⟩ ⟨3, 1⟩ (some 0) 100],
    removed := [], nextId := 2, width := ⟨200, 1⟩, height := ⟨200, 1⟩ }

/-- C10 witness: the primary star survives two full ticks. -/
theorem C10_witness :
    ∃ b2 ∈ (drawN 2 primSim).bodies,
      b2.id = (mkTestBody 0 ⟨900, 1⟩ ⟨0, 1⟩ ⟨0, 1⟩ ⟨0, 1⟩ ⟨0, 1⟩ none 100).id ∧
      b2.parent = none :=
  C10_primary_persists 2 primSim
    (mkTestBody 0 ⟨900, 1⟩ ⟨0, 1⟩ ⟨0, 1⟩ ⟨0, 1⟩ ⟨0, 1⟩ none 100)
    (by decide) rfl

/-- Sim for the C6 witness: star of mass 50 (id 0) with a satellite of mass 5
(id 1) orbiting it. -/
def muSim : Sim :=
  { bodies := [mkTestBody 0 ⟨50, 1⟩ ⟨0, 1⟩ ⟨0, 1⟩ ⟨0, 1⟩ ⟨0, 1⟩ none 100,
               mkTestBody 1 ⟨5, 1⟩ ⟨5, 1⟩ ⟨0, 1⟩ ⟨0, 1⟩ ⟨5, 1⟩ (some 0) 100],
    removed := [], nextId := 2, width := ⟨200, 1⟩, height := ⟨200, 1⟩ }

def muSat : Body := mkTestBody 1 ⟨5, 1⟩ ⟨5, 1⟩ ⟨0, 1⟩ ⟨0, 1⟩ ⟨5, 1⟩ (some 0) 100

/-- C6: the standard gravitational parameter is the getter
`get gravitationalParameter()`, recomputed from the current masses on every
access: in any state it equals G times the sum of the reference body's
current mass and the body's own mass, in any other state (for example after
an external mass edit through `setMass`) it equals the same expression over
that state's masses, and the eccentricity returned by
`calculateOrbitalParameters` is computed with exactly this
current-mass parameter. -/
theorem C6_mu_recomputed (s s2 : Sim) (b pb pb2 : Body) (p : Nat)
    (hbp : b.parent = some p) (h1 : lookup s p = some pb)
    (h2 : lookup s2 p = some pb2) (j : Nat) (m : JF) (pb3 : Body)
    (h3 : lookup (setMass s j m) p = some pb3) :
    gravitationalParameter s b = GRAVITY.mul (pb.mass.add b.mass) ∧
    gravitationalParameter s2 b = GRAVITY.mul (pb2.mass.add b.mass) ∧
    gravitationalParameter (setMass s j m) b =
      GRAVITY.mul (pb3.mass.add b.mass) ∧
    (calculateOrbitalParameters s b).2 =
      Vec.mag (Vec.sub
        (Vec.divScalar
          (Vec.crossWithZ b.velocity
            (Vec.crossZ (Vec.sub b.position pb.position) b.velocity))
          (GRAVITY.mul (pb.mass.add b.mass)))
        (Vec.normalize (Vec.sub b.position pb.position))) := by
  refine ⟨?_, ?_, ?_, ?_⟩
  · simp [gravitationalParameter, hbp, h1]
  · simp [gravitationalParameter, hbp, h2]
  · simp [gravitationalParameter, hbp, h3]
  · simp [calculateOrbitalParameters, gravitationalParameter, hbp, h1]

/-- C6 witness: with the star's mass edited from 50 to 99 through the menu
path, the parameter used next is G * (99 + 5). -/
theorem C6_witness :
    gravitationalParameter muSim muSat =
      GRAVITY.mul ((JF.fin ⟨50, 1⟩).add (JF.fin ⟨5, 1⟩)) ∧
    gravitationalParameter (setMass muSim 0 (JF.ofInt 99)) muSat =
      GRAVITY.mul ((JF.ofInt 99).add (JF.fin ⟨5, 1⟩)) := by
  have h := C6_mu_recomputed muSim muSim muSat
    (mkTestBody 0 ⟨50, 1⟩ ⟨0, 1⟩ ⟨0, 1⟩ ⟨0, 1⟩ ⟨0, 1⟩ none 100)
    (mkTestBody 0 ⟨50, 1⟩ ⟨0, 1⟩ ⟨0, 1⟩ ⟨0, 1⟩ ⟨0, 1⟩ none 100) 0
    (by decide) (by decide) (by decide) 0 (JF.ofInt 99)
    { mkTestBody 0 ⟨50, 1⟩ ⟨0, 1⟩ ⟨0, 1⟩ ⟨0, 1⟩ ⟨0, 1⟩ none 100 with
        mass := JF.ofInt 99 }
    (by decide)
  exact ⟨h.1, h.2.2.1⟩

/-- A star of mass `M` at the origin, at rest (the reference body of the
`addSatellite` round-trip family). -/
def c9StarOf (M : Nat) : Body :=
  mkTestBody 0 ⟨(M : Int), 1⟩ ⟨0, 1⟩ ⟨0, 1⟩ ⟨0, 1⟩ ⟨0, 1⟩ none 100

def c9SimOf (M : Nat) : Sim :=
  { bodies := [c9StarOf M], removed := [], nextId := 1,
    width := ⟨200, 1⟩, height := ⟨200, 1⟩ }

/-- The satellite body as built by the `CelestialBody` constructor before
`calculateOrbitalParameters` runs: mass `m`, offset `(d, 0)` from the star,
velocity `(0, ny/Dd)`. -/
def c9Body (m d : Nat) (ny : Int) (Dd : Nat) : Body :=
  { id := 1, mass := JF.fin ⟨(m : Int), 1⟩,
    position := ⟨JF.fin ⟨(d : Int), 1⟩, JF.fin ⟨0, 1⟩⟩,
    velocity := ⟨JF.fin ⟨0, Dd⟩, JF.fin ⟨ny, Dd⟩⟩,
    acceleration := Vec.zero, parent := some 0, timeOut := 100,
    eccentricityVector := Vec.zero, eccentricity := JF.ofInt 0,
    semimajorAxis := JF.ofInt 0, semiminorAxis := JF.ofInt 0 }

/-- Numerator of the x component of the eccentricity vector of `c9Body`. -/
def c9EvN (M m d : Nat) (ny : Int) (Dd : Nat) : Int :=
  (d : Int) * (10 * (ny * ny) * ((d : Int) * (Dd : Int))) -
    (d : Int) * ((Dd * (Dd * Dd) * (M + m) : Nat) : Int)

/-- Denominator of the components of the eccentricity vector of `c9Body`. -/
def c9EvD (M m d : Nat) (Dd : Nat) : Nat := Dd * (Dd * Dd) * (M + m) * d

/-- Exact eccentricity computed by `calculateOrbitalParameters` for the
satellite family `c9Body` orbiting `c9StarOf`. -/
theorem c9_calc_ecc (M m d : Nat) (ny : Int) (Dd : Nat)
    (hd : 0 < d) (hMm : 0 < M + m) :
    (calculateOrbitalParameters (c9SimOf M) (c9Body m d ny Dd)).1.eccentricity =
      JF.fin ⟨(((c9EvN M m d ny Dd).natAbs * c9EvD M m d Dd *
          (c9EvD M m d Dd * c9EvD M m d Dd) : Nat) : Int),
        c9EvD M m d Dd * c9EvD M m d Dd *
          (c9EvD M m d Dd * c9EvD M m d Dd)⟩ := by
  have hpar : (c9Body m d ny Dd).parent = some 0 := rfl
  have hlk : lookup (c9SimOf M) 0 = some (c9StarOf M) := rfl
  have hsd : ((d : Nat) : Int).sign = 1 :=
    Int.sign_eq_one_iff_pos.mpr (by exact_mod_cast hd)
  have hMms : ((M + m : Nat) : Int).sign = 1 :=
    Int.sign_eq_one_iff_pos.mpr (by exact_mod_cast hMm)
  have hbpos : (c9Body m d ny Dd).position =
      ⟨JF.fin ⟨(d : Int), 1⟩, JF.fin ⟨0, 1⟩⟩ := rfl
  have hbvel : (c9Body m d ny Dd).velocity =
      ⟨JF.fin ⟨0, Dd⟩, JF.fin ⟨ny, Dd⟩⟩ := rfl
  have hspos : (c9StarOf M).position = ⟨JF.fin ⟨0, 1⟩, JF.fin ⟨0, 1⟩⟩ := rfl
  have hu : gravitationalParameter (c9SimOf M) (c9Body m d ny Dd) =
      JF.fin ⟨((M + m : Nat) : Int), 10⟩ := by
    simp only [gravitationalParameter, hpar, hlk]
    show (JF.fin ⟨1, 10⟩).mul
      ((JF.fin ⟨(M : Int), 1⟩).add (JF.fin ⟨(m : Int), 1⟩)) = _
    simp only [JF.add, JF.mul, QQ.add, QQ.mul, JF.fin.injEq, QQ.mk.injEq]
    and_intros <;> push_cast <;> ring_nf
  have hrel : Vec.sub (c9Body m d ny Dd).position (c9StarOf M).position =
      ⟨JF.fin ⟨(d : Int), 1⟩, JF.fin ⟨0, 1⟩⟩ := by
    rw [hbpos, hspos, sub_fin_fin]
    simp [QQ.add, QQ.neg]
  have hcross : Vec.crossZ ⟨JF.fin ⟨(d : Int), 1⟩, JF.fin ⟨0, 1⟩⟩
      ⟨JF.fin ⟨0, Dd⟩, JF.fin ⟨ny, Dd⟩⟩ =
      JF.fin ⟨(d : Int) * ny * (Dd : Int), Dd * Dd⟩ := by
    show JF.fin (((⟨(d : Int), 1⟩ : QQ).mul ⟨ny, Dd⟩).add
      ((⟨0, 1⟩ : QQ).mul ⟨0, Dd⟩).neg) = _
    simp only [QQ.mul, QQ.add, QQ.neg, JF.fin.injEq, QQ.mk.injEq]
    and_intros <;> push_cast <;> ring_nf
  have hsam : Vec.crossWithZ ⟨JF.fin ⟨0, Dd⟩, JF.fin ⟨ny, Dd⟩⟩
      (JF.fin ⟨(d : Int) * ny * (Dd : Int), Dd * Dd⟩) =
      ⟨JF.fin ⟨ny * ny * ((d : Int) * (Dd : Int)), Dd * (Dd * Dd)⟩,
        JF.fin ⟨0, Dd * (Dd * Dd)⟩⟩ := by
    show (⟨JF.fin ((⟨ny, Dd⟩ : QQ).mul ⟨(d : Int) * ny * (Dd : Int), Dd * Dd⟩),
      JF.fin ((⟨0, Dd⟩ : QQ).mul
        ⟨(d : Int) * ny * (Dd : Int), Dd * Dd⟩).neg⟩ : Vec) = _
    simp only [QQ.mul, QQ.neg, Vec.mk.injEq, JF.fin.injEq, QQ.mk.injEq]
    and_intros <;> push_cast <;> ring_nf
  have hzu : (⟨((M + m : Nat) : Int), 10⟩ : QQ).isZero = false := by
    simp only [QQ.isZero, beq_eq_false_iff_ne, ne_eq]
    exact_mod_cast hMm.ne'
  have hdiv : Vec.divScalar
      ⟨JF.fin ⟨ny * ny * ((d : Int) * (Dd : Int)), Dd * (Dd * Dd)⟩,
        JF.fin ⟨0, Dd * (Dd * Dd)⟩⟩ (JF.fin ⟨((M + m : Nat) : Int), 10⟩) =
      ⟨JF.fin ⟨ny * ny * ((d : Int) * (Dd : Int)) * 10, Dd * (Dd * Dd) * (M + m)⟩,
        JF.fin ⟨0, Dd * (Dd * Dd) * (M + m)⟩⟩ := by
    simp only [Vec.divScalar, hzu, Bool.false_eq_true, if_false,
      JF.div_fin _ _ hzu, QQ.div, hMms, Int.natAbs_ofNat, mul_one,
      Vec.mk.injEq, JF.fin.injEq, QQ.mk.injEq]
    and_intros <;> push_cast <;> ring_nf
  have hmagrel : Vec.mag ⟨JF.fin ⟨(d : Int), 1⟩, JF.fin ⟨0, 1⟩⟩ =
      JF.fin ⟨(d : Int), 1⟩ := by
    rw [mag_y_zero]
    simp [Int.natAbs_ofNat]
  have hlenz : (⟨(d : Int), 1⟩ : QQ).isZero = false := by
    simp only [QQ.isZero, beq_eq_false_iff_ne, ne_eq]
    exact_mod_cast hd.ne'
  have hw : (JF.ofInt 1).div (JF.fin ⟨(d : Int), 1⟩) = JF.fin ⟨1, d⟩ := by
    rw [show JF.ofInt 1 = JF.fin ⟨1, 1⟩ from rfl, JF.div_fin _ _ hlenz]
    simp only [QQ.div, hsd, Int.natAbs_ofNat, JF.fin.injEq, QQ.mk.injEq]
    and_intros <;> push_cast <;> ring_nf
  have hnorm : Vec.normalize ⟨JF.fin ⟨(d : Int), 1⟩, JF.fin ⟨0, 1⟩⟩ =
      ⟨JF.fin ⟨(d : Int), d⟩, JF.fin ⟨0, d⟩⟩ := by
    simp only [Vec.normalize, hmagrel, JF.eqZeroB, hlenz, Bool.false_eq_true,
      if_false, hw, scale_fin_fin]
    simp [QQ.mul]
  have hev : Vec.sub
      ⟨JF.fin ⟨ny * ny * ((d : Int) * (Dd : Int)) * 10, Dd * (Dd * Dd) * (M + m)⟩,
        JF.fin ⟨0, Dd * (Dd * Dd) * (M + m)⟩⟩
      ⟨JF.fin ⟨(d : Int), d⟩, JF.fin ⟨0, d⟩⟩ =
      ⟨JF.fin ⟨c9EvN M m d ny Dd, c9EvD M m d Dd⟩,
        JF.fin ⟨0, c9EvD M m d Dd⟩⟩ := by
    rw [sub_fin_fin]
    simp only [QQ.add, QQ.neg, c9EvN, c9EvD, Vec.mk.injEq, JF.fin.injEq,
      QQ.mk.injEq]
    and_intros <;> push_cast <;> ring_nf
  have hecc : Vec.mag ⟨JF.fin ⟨c9EvN M m d ny Dd, c9EvD M m d Dd⟩,
      JF.fin ⟨0, c9EvD M m d Dd⟩⟩ =
      JF.fin ⟨(((c9EvN M m d ny Dd).natAbs * c9EvD M m d Dd *
          (c9EvD M m d Dd * c9EvD M m d Dd) : Nat) : Int),
        c9EvD M m d Dd * c9EvD M m d Dd *
          (c9EvD M m d Dd * c9EvD M m d Dd)⟩ := by
    rw [mag_y_zero]
  simp only [calculateOrbitalParameters, hpar, hlk]
  rw [hrel, hbvel, hu, hcross, hsam, hdiv, hnorm, hev, hecc]

/-- The vis-viva velocity vector built by `addSatellite` with eccentricity
modifier 0 for a satellite at offset `(d, 0)` from the star, given the
circular-speed relation `v² · 10·d = M` (i.e. `v² = G·M/d`). -/
theorem c9_vv_zero (M d v : Nat) (sign : Bool) (hd : 0 < d)
    (hv : v * v * (10 * d) = M) :
    Vec.setMag
      (Vec.rotateQuarter
        (Vec.sub ⟨JF.fin ⟨(d : Int), 1⟩, JF.fin ⟨0, 1⟩⟩ (c9StarOf M).position)
        sign)
      (JF.sqrt ((gravitationalParameter (c9SimOf M) (c9StarOf M)).mul
        (((JF.ofInt 2).div
          (Vec.dist ⟨JF.fin ⟨(d : Int), 1⟩, JF.fin ⟨0, 1⟩⟩
            (c9StarOf M).position)).sub
          ((JF.ofInt 1).div
            ((Vec.dist ⟨JF.fin ⟨(d : Int), 1⟩, JF.fin ⟨0, 1⟩⟩
              (c9StarOf M).position).div ((JF.ofInt 1).add (JF.ofInt 0))))))) =
    ⟨JF.fin ⟨0, d * (10 * (d * d))⟩,
      JF.fin ⟨(if sign then (1 : Int) else -1) *
          ((d * (10 * (v * (d * d))) : Nat) : Int),
        d * (10 * (d * d))⟩⟩ := by
  have hspos : (c9StarOf M).position = ⟨JF.fin ⟨0, 1⟩, JF.fin ⟨0, 1⟩⟩ := rfl
  have hsd : ((d : Nat) : Int).sign = 1 :=
    Int.sign_eq_one_iff_pos.mpr (by exact_mod_cast hd)
  have hdz : (⟨(d : Int), 1⟩ : QQ).isZero = false := by
    simp only [QQ.isZero, beq_eq_false_iff_ne, ne_eq]
    exact_mod_cast hd.ne'
  have hsub : Vec.sub ⟨JF.fin ⟨(d : Int), 1⟩, JF.fin ⟨0, 1⟩⟩
      ⟨JF.fin ⟨0, 1⟩, JF.fin ⟨0, 1⟩⟩ =
      ⟨JF.fin ⟨(d : Int), 1⟩, JF.fin ⟨0, 1⟩⟩ := by
    rw [sub_fin_fin]
    simp [QQ.add, QQ.neg]
  have hdist : Vec.dist ⟨JF.fin ⟨(d : Int), 1⟩, JF.fin ⟨0, 1⟩⟩
      ⟨JF.fin ⟨0, 1⟩, JF.fin ⟨0, 1⟩⟩ = JF.fin ⟨(d : Int), 1⟩ := by
    unfold Vec.dist
    rw [hsub, mag_y_zero]
    simp [Int.natAbs_ofNat]
  have hug : gravitationalParameter (c9SimOf M) (c9StarOf M) =
      JF.fin ⟨(M : Int), 10⟩ := by
    have hpn : (c9StarOf M).parent = none := rfl
    simp only [gravitationalParameter, hpn]
    show (JF.fin ⟨1, 10⟩).mul (JF.fin ⟨(M : Int), 1⟩) = _
    simp only [JF.mul, QQ.mul, JF.fin.injEq, QQ.mk.injEq]
    and_intros <;> push_cast <;> ring_nf
  have h1e : (JF.ofInt 1).add (JF.ofInt 0) = JF.fin ⟨1, 1⟩ := by
    show JF.fin ((⟨1, 1⟩ : QQ).add ⟨0, 1⟩) = _
    simp [QQ.add]
  have honez : (⟨1, 1⟩ : QQ).isZero = false := by decide
  have hs1 : (1 : Int).sign = 1 := rfl
  have ha1 : (1 : Int).natAbs = 1 := rfl
  have hdd1 : (JF.fin ⟨(d : Int), 1⟩).div (JF.fin ⟨1, 1⟩) =
      JF.fin ⟨(d : Int), 1⟩ := by
    rw [JF.div_fin _ _ honez]
    simp only [QQ.div, hs1, ha1, JF.fin.injEq, QQ.mk.injEq]
    and_intros <;> push_cast <;> ring_nf
  have hA : (JF.ofInt 2).div (JF.fin ⟨(d : Int), 1⟩) = JF.fin ⟨2, d⟩ := by
    rw [show JF.ofInt 2 = JF.fin ⟨2, 1⟩ from rfl, JF.div_fin _ _ hdz]
    simp only [QQ.div, hsd, Int.natAbs_ofNat, JF.fin.injEq, QQ.mk.injEq]
    and_intros <;> push_cast <;> ring_nf
  have hB : (JF.ofInt 1).div (JF.fin ⟨(d : Int), 1⟩) = JF.fin ⟨1, d⟩ := by
    rw [show JF.ofInt 1 = JF.fin ⟨1, 1⟩ from rfl, JF.div_fin _ _ hdz]
    simp only [QQ.div, hsd, Int.natAbs_ofNat, JF.fin.injEq, QQ.mk.injEq]
    and_intros <;> push_cast <;> ring_nf
  have hS : (JF.fin ⟨2, d⟩).sub (JF.fin ⟨1, d⟩) =
      JF.fin ⟨(d : Int), d * d⟩ := by
    show JF.fin ((⟨2, d⟩ : QQ).add (⟨1, d⟩ : QQ).neg) = _
    simp only [QQ.add, QQ.neg, JF.fin.injEq, QQ.mk.injEq]
    and_intros <;> push_cast <;> ring_nf
  have hrad : (JF.fin ⟨(M : Int), 10⟩).mul (JF.fin ⟨(d : Int), d * d⟩) =
      JF.fin ⟨((M * d : Nat) : Int), 10 * (d * d)⟩ := by
    simp only [JF.mul, QQ.mul, JF.fin.injEq, QQ.mk.injEq]
    and_intros <;> push_cast <;> ring_nf
  have hvm : (JF.fin ⟨((M * d : Nat) : Int), 10 * (d * d)⟩).sqrt =
      JF.fin ⟨((10 * (v * (d * d)) : Nat) : Int), 10 * (d * d)⟩ := by
    rw [JF.sqrt_fin _ (by
      simp only [QQ.isNeg, decide_eq_false_iff_not, not_lt]
      exact Int.natCast_nonneg _)]
    rw [sqrtQ_perfect _ (10 * (v * (d * d))) (by
      show ((M * d : Nat) : Int).toNat * (10 * (d * d)) = _
      rw [Int.toNat_natCast, ← hv]
      ring)]
  rw [hspos, hsub, hdist, hug, h1e, hdd1, hA, hB, hS, hrad, hvm]
  cases sign with
  | true =>
    have hrot : Vec.rotateQuarter ⟨JF.fin ⟨(d : Int), 1⟩, JF.fin ⟨0, 1⟩⟩ true =
        ⟨JF.fin ⟨0, 1⟩, JF.fin ⟨(d : Int), 1⟩⟩ := by
      simp [Vec.rotateQuarter, JF.neg, QQ.neg]
    have hmrot : Vec.mag ⟨JF.fin ⟨0, 1⟩, JF.fin ⟨(d : Int), 1⟩⟩ =
        JF.fin ⟨(d : Int), 1⟩ := by
      rw [mag_x_zero]
      simp [Int.natAbs_ofNat]
    have hnr : Vec.normalize ⟨JF.fin ⟨0, 1⟩, JF.fin ⟨(d : Int), 1⟩⟩ =
        ⟨JF.fin ⟨0, d⟩, JF.fin ⟨(d : Int), d⟩⟩ := by
      simp only [Vec.normalize, hmrot, JF.eqZeroB, hdz, Bool.false_eq_true,
        if_false, hB, scale_fin_fin]
      simp [QQ.mul]
    rw [hrot]
    simp only [Vec.setMag, hnr, scale_fin_fin, if_true, Vec.mk.injEq,
      JF.fin.injEq, QQ.mk.injEq, QQ.mul]
    and_intros <;> push_cast <;> ring_nf
  | false =>
    have hrot : Vec.rotateQuarter ⟨JF.fin ⟨(d : Int), 1⟩, JF.fin ⟨0, 1⟩⟩ false =
        ⟨JF.fin ⟨0, 1⟩, JF.fin ⟨-(d : Int), 1⟩⟩ := by
      simp [Vec.rotateQuarter, JF.neg, QQ.neg]
    have hmrot : Vec.mag ⟨JF.fin ⟨0, 1⟩, JF.fin ⟨-(d : Int), 1⟩⟩ =
        JF.fin ⟨(d : Int), 1⟩ := by
      rw [mag_x_zero]
      simp [Int.natAbs_neg, Int.natAbs_ofNat]
    have hnr : Vec.normalize ⟨JF.fin ⟨0, 1⟩, JF.fin ⟨-(d : Int), 1⟩⟩ =
        ⟨JF.fin ⟨0, d⟩, JF.fin ⟨-(d : Int), d⟩⟩ := by
      simp only [Vec.normalize, hmrot, JF.eqZeroB, hdz, Bool.false_eq_true,
        if_false, hB, scale_fin_fin]
      simp [QQ.mul]
    rw [hrot]
    simp only [Vec.setMag, hnr, scale_fin_fin, if_false, Vec.mk.injEq,
      JF.fin.injEq, QQ.mk.injEq, QQ.mul]
    and_intros <;> push_cast <;> ring_nf

/-- The vis-viva velocity vector built by `addSatellite` with eccentricity
modifier 1: the radicand collapses to zero, so the satellite is created at
rest (zero-numerator velocity components). -/
theorem c9_vv_one (M d : Nat) (sign : Bool) (hd : 0 < d) :
    Vec.setMag
      (Vec.rotateQuarter
        (Vec.sub ⟨JF.fin ⟨(d : Int), 1⟩, JF.fin ⟨0, 1⟩⟩ (c9StarOf M).position)
        sign)
      (JF.sqrt ((gravitationalParameter (c9SimOf M) (c9StarOf M)).mul
        (((JF.ofInt 2).div
          (Vec.dist ⟨JF.fin ⟨(d : Int), 1⟩, JF.fin ⟨0, 1⟩⟩
            (c9StarOf M).position)).sub
          ((JF.ofInt 1).div
            ((Vec.dist ⟨JF.fin ⟨(d : Int), 1⟩, JF.fin ⟨0, 1⟩⟩
              (c9StarOf M).position).div ((JF.ofInt 1).add (JF.ofInt 1))))))) =
    ⟨JF.fin ⟨0, d * (10 * (d * d))⟩, JF.fin ⟨0, d * (10 * (d * d))⟩⟩ := by
  have hspos : (c9StarOf M).position = ⟨JF.fin ⟨0, 1⟩, JF.fin ⟨0, 1⟩⟩ := rfl
  have hsd : ((d : Nat) : Int).sign = 1 :=
    Int.sign_eq_one_iff_pos.mpr (by exact_mod_cast hd)
  have hdz : (⟨(d : Int), 1⟩ : QQ).isZero = false := by
    simp only [QQ.isZero, beq_eq_false_iff_ne, ne_eq]
    exact_mod_cast hd.ne'
  have hdz2 : (⟨(d : Int), 2⟩ : QQ).isZero = false := by
    simp only [QQ.isZero, beq_eq_false_iff_ne, ne_eq]
    exact_mod_cast hd.ne'
  have hsub : Vec.sub ⟨JF.fin ⟨(d : Int), 1⟩, JF.fin ⟨0, 1⟩⟩
      ⟨JF.fin ⟨0, 1⟩, JF.fin ⟨0, 1⟩⟩ =
      ⟨JF.fin ⟨(d : Int), 1⟩, JF.fin ⟨0, 1⟩⟩ := by
    rw [sub_fin_fin]
    simp [QQ.add, QQ.neg]
  have hdist : Vec.dist ⟨JF.fin ⟨(d : Int), 1⟩, JF.fin ⟨0, 1⟩⟩
      ⟨JF.fin ⟨0, 1⟩, JF.fin ⟨0, 1⟩⟩ = JF.fin ⟨(d : Int), 1⟩ := by
    unfold Vec.dist
    rw [hsub, mag_y_zero]
    simp [Int.natAbs_ofNat]
  have hug : gravitationalParameter (c9SimOf M) (c9StarOf M) =
      JF.fin ⟨(M : Int), 10⟩ := by
    have hpn : (c9StarOf M).parent = none := rfl
    simp only [gravitationalParameter, hpn]
    show (JF.fin ⟨1, 10⟩).mul (JF.fin ⟨(M : Int), 1⟩) = _
    simp only [JF.mul, QQ.mul, JF.fin.injEq, QQ.mk.injEq]
    and_intros <;> push_cast <;> ring_nf
  have h1e : (JF.ofInt 1).add (JF.ofInt 1) = JF.fin ⟨2, 1⟩ := by
    show JF.fin ((⟨1, 1⟩ : QQ).add ⟨1, 1⟩) = _
    simp [QQ.add]
  have htwoz : (⟨2, 1⟩ : QQ).isZero = false := by decide
  have hs2 : (2 : Int).sign = 1 := rfl
  have ha2 : (2 : Int).natAbs = 2 := rfl
  have hdd2 : (JF.fin ⟨(d : Int), 1⟩).div (JF.fin ⟨2, 1⟩) =
      JF.fin ⟨(d : Int), 2⟩ := by
    rw [JF.div_fin _ _ htwoz]
    simp only [QQ.div, hs2, ha2, JF.fin.injEq, QQ.mk.injEq]
    and_intros <;> push_cast <;> ring_nf
  have hA : (JF.ofInt 2).div (JF.fin ⟨(d : Int), 1⟩) = JF.fin ⟨2, d⟩ := by
    rw [show JF.ofInt 2 = JF.fin ⟨2, 1⟩ from rfl, JF.div_fin _ _ hdz]
    simp only [QQ.div, hsd, Int.natAbs_ofNat, JF.fin.injEq, QQ.mk.injEq]
    and_intros <;> push_cast <;> ring_nf
  have hB : (JF.ofInt 1).div (JF.fin ⟨(d : Int), 2⟩) = JF.fin ⟨2, d⟩ := by
    rw [show JF.ofInt 1 = JF.fin ⟨1, 1⟩ from rfl, JF.div_fin _ _ hdz2]
    simp only [QQ.div, hsd, Int.natAbs_ofNat, JF.fin.injEq, QQ.mk.injEq]
    and_intros <;> push_cast <;> ring_nf
  have hB1 : (JF.ofInt 1).div (JF.fin ⟨(d : Int), 1⟩) = JF.fin ⟨1, d⟩ := by
    rw [show JF.ofInt 1 = JF.fin ⟨1, 1⟩ from rfl, JF.div_fin _ _ hdz]
    simp only [QQ.div, hsd, Int.natAbs_ofNat, JF.fin.injEq, QQ.mk.injEq]
    and_intros <;> push_cast <;> ring_nf
  have hS : (JF.fin ⟨2, d⟩).sub (JF.fin ⟨2, d⟩) = JF.fin ⟨0, d * d⟩ := by
    show JF.fin ((⟨2, d⟩ : QQ).add (⟨2, d⟩ : QQ).neg) = _
    simp only [QQ.add, QQ.neg, JF.fin.injEq, QQ.mk.injEq]
    and_intros <;> push_cast <;> ring_nf
  have hrad : (JF.fin ⟨(M : Int), 10⟩).mul (JF.fin ⟨0, d * d⟩) =
      JF.fin ⟨0, 10 * (d * d)⟩ := by
    simp only [JF.mul, QQ.mul, JF.fin.injEq, QQ.mk.injEq]
    and_intros <;> push_cast <;> ring_nf
  have hvm : (JF.fin ⟨0, 10 * (d * d)⟩).sqrt = JF.fin ⟨0, 10 * (d * d)⟩ := by
    rw [JF.sqrt_fin _ (by simp [QQ.isNeg])]
    rw [sqrtQ_perfect _ 0 (by simp)]
    simp
  rw [hspos, hsub, hdist, hug, h1e, hdd2, hA, hB, hS, hrad, hvm]
  cases sign with
  | true =>
    have hrot : Vec.rotateQuarter ⟨JF.fin ⟨(d : Int), 1⟩, JF.fin ⟨0, 1⟩⟩ true =
        ⟨JF.fin ⟨0, 1⟩, JF.fin ⟨(d : Int), 1⟩⟩ := by
      simp [Vec.rotateQuarter, JF.neg, QQ.neg]
    have hmrot : Vec.mag ⟨JF.fin ⟨0, 1⟩, JF.fin ⟨(d : Int), 1⟩⟩ =
        JF.fin ⟨(d : Int), 1⟩ := by
      rw [mag_x_zero]
      simp [Int.natAbs_ofNat]
    have hnr : Vec.normalize ⟨JF.fin ⟨0, 1⟩, JF.fin ⟨(d : Int), 1⟩⟩ =
        ⟨JF.fin ⟨0, d⟩, JF.fin ⟨(d : Int), d⟩⟩ := by
      simp only [Vec.normalize, hmrot, JF.eqZeroB, hdz, Bool.false_eq_true,
        if_false, hB1, scale_fin_fin]
      simp [QQ.mul]
    rw [hrot]
    simp only [Vec.setMag, hnr, scale_fin_fin, Vec.mk.injEq, JF.fin.injEq,
      QQ.mk.injEq, QQ.mul]
    and_intros <;> push_cast <;> ring_nf
  | false =>
    have hrot : Vec.rotateQuarter ⟨JF.fin ⟨(d : Int), 1⟩, JF.fin ⟨0, 1⟩⟩ false =
        ⟨JF.fin ⟨0, 1⟩, JF.fin ⟨-(d : Int), 1⟩⟩ := by
      simp [Vec.rotateQuarter, JF.neg, QQ.neg]
    have hmrot : Vec.mag ⟨JF.fin ⟨0, 1⟩, JF.fin ⟨-(d : Int), 1⟩⟩ =
        JF.fin ⟨(d : Int), 1⟩ := by
      rw [mag_x_zero]
      simp [Int.natAbs_neg, Int.natAbs_ofNat]
    have hnr : Vec.normalize ⟨JF.fin ⟨0, 1⟩, JF.fin ⟨-(d : Int), 1⟩⟩ =
        ⟨JF.fin ⟨0, d⟩, JF.fin ⟨-(d : Int), d⟩⟩ := by
      simp only [Vec.normalize, hmrot, JF.eqZeroB, hdz, Bool.false_eq_true,
        if_false, hB1, scale_fin_fin]
      simp [QQ.mul]
    rw [hrot]
    simp only [Vec.setMag, hnr, scale_fin_fin, Vec.mk.injEq, JF.fin.injEq,
      QQ.mk.injEq, QQ.mul]
    and_intros <;> push_cast <;> ring_nf

/-- C2: for every body and every other body at the exact same position
(squared separation `r2 == 0`), the pair's contribution to the
acceleration is zero in value — the zero-division makes `force` equal to
`Infinity`, `setMag`'s `normalize` leaves the zero distance vector
unchanged (p5's `len !== 0` guard) and p5's `mult` rejects the non-finite
scalar, so the pair is effectively skipped — and for any configuration of
bodies with positive finite masses and finite well-formed positions,
`applyGravity` never produces a NaN or infinite acceleration component. -/
theorem C2_coincident_pair_guarded (s : Sim) (self other : Body)
    (hms : self.mass.posFinB = true) (hps : self.position.finWfB = true)
    (hmo : other.mass.posFinB = true) (hpo : other.position.finWfB = true)
    (hall : ∀ o ∈ s.bodies, o.mass.posFinB = true ∧ o.position.finWfB = true)
    (hco : (Vec.magSq (Vec.sub other.position self.position)).eqZeroB = true) :
    Vec.numEq (gravContrib self other) Vec.zero = true ∧
    (applyGravity s self).acceleration.x.isFiniteB = true ∧
    (applyGravity s self).acceleration.y.isFiniteB = true :=
  ⟨(gravContrib_fin_zero self other hms hmo hps hpo).2 hco,
    (applyGravity_acc_fin s self hms hps hall).1,
    (applyGravity_acc_fin s self hms hps hall).2⟩

/-- Two coincident bodies at (1, 2) with masses 5 and 3. -/
def coB0 : Body := mkTestBody 0 ⟨5, 1⟩ ⟨1, 1⟩ ⟨2, 1⟩ ⟨0, 1⟩ ⟨0, 1⟩ none 100

def coB1 : Body := mkTestBody 1 ⟨3, 1⟩ ⟨1, 1⟩ ⟨2, 1⟩ ⟨0, 1⟩ ⟨0, 1⟩ none 100

def coSim : Sim :=
  { bodies := [coB0, coB1], removed := [], nextId := 2,
    width := ⟨200, 1⟩, height := ⟨200, 1⟩ }

/-- C2 witness: the coincident pair at (1, 2) contributes zero and the
accumulated acceleration stays finite. -/
theorem C2_witness :
    Vec.numEq (gravContrib coB0 coB1) Vec.zero = true ∧
    (applyGravity coSim coB0).acceleration.x.isFiniteB = true ∧
    (applyGravity coSim coB0).acceleration.y.isFiniteB = true :=
  C2_coincident_pair_guarded coSim coB0 coB1 (by decide) (by decide) (by decide)
    (by decide) (by decide) (by decide)

/-- The satellite created on a star of mass 40 at offset (4, 0) with
eccentricity modifier `e` (positive velocity sign). -/
def c9SatOf (e : JF) : Option Body :=
  match addSatellite (c9SimOf 40) (c9StarOf 40) (JF.fin ⟨10, 1⟩)
      ⟨JF.fin ⟨4, 1⟩, JF.fin ⟨0, 1⟩⟩ e true with
  | Except.ok s2 => s2.bodies[1]?
  | Except.error _ => none

/-- C9 counterexample: with eccentricity modifier 1, the immediately
computed eccentricity is exactly 1, not approximately 0 — the vis-viva
radicand `2/d − 1/(d/(1+1))` collapses to zero, so the satellite is created
at rest and its orbit is degenerate radial, the opposite of circular (and
the eccentricity is not below 1/2 under any reading of "approximately
0"). -/
theorem C9_counterexample :
    (c9SatOf (JF.ofInt 1)).map (fun b =>
      (b.eccentricity.numEq (JF.ofInt 1), Vec.numEq b.velocity Vec.zero,
        b.eccentricity.ltb (JF.fin ⟨1, 2⟩))) = some (true, true, false) := by
  decide

/-- C9 (corrected): for every star mass `M`, satellite mass `m > 0`,
distance `d > 0` and circular speed `v` with `v²·10·d = M` (vis-viva at
eccentricity 0, `G = 0.1`), and either velocity sign: `addSatellite` with
eccentricity modifier 1 creates a satellite AT REST whose immediate
eccentricity is exactly 1 (degenerate radial orbit, not circular); the
circular setting is the default modifier 0, and even then the immediate
eccentricity is exactly `m/(M+m)` — approximately 0 only when the
satellite's mass is negligible against the reference mass — because the
launch speed uses the parent's gravitational parameter `G·M` while the
orbital elements are computed with `G·(M+m)`. -/
theorem C9_amended_circular_is_modifier_zero (M m d v : Nat) (sign : Bool)
    (hm : 0 < m) (hd : 0 < d) (hv : v * v * (10 * d) = M) :
    (∃ sat, addSatellite (c9SimOf M) (c9StarOf M) (JF.fin ⟨(m : Int), 1⟩)
        ⟨JF.fin ⟨(d : Int), 1⟩, JF.fin ⟨0, 1⟩⟩ (JF.ofInt 1) sign =
          Except.ok { c9SimOf M with
            bodies := (c9SimOf M).bodies ++ [sat],
            nextId := (c9SimOf M).nextId + 1 } ∧
        Vec.numEq sat.velocity Vec.zero = true ∧
        sat.eccentricity.numEq (JF.ofInt 1) = true) ∧
    (∃ sat, addSatellite (c9SimOf M) (c9StarOf M) (JF.fin ⟨(m : Int), 1⟩)
        ⟨JF.fin ⟨(d : Int), 1⟩, JF.fin ⟨0, 1⟩⟩ (JF.ofInt 0) sign =
          Except.ok { c9SimOf M with
            bodies := (c9SimOf M).bodies ++ [sat],
            nextId := (c9SimOf M).nextId + 1 } ∧
        sat.eccentricity.numEq (JF.fin ⟨(m : Int), M + m⟩) = true) := by
  subst hv
  have hMm : 0 < v * v * (10 * d) + m :=
    Nat.lt_of_lt_of_le hm (Nat.le_add_left _ _)
  have hm' : (JF.fin ⟨(m : Int), 1⟩).leb (JF.ofInt 0) = false := by
    simp only [JF.ofInt, QQ.ofInt, JF.leb, QQ.ble, decide_eq_false_iff_not,
      not_le]
    push_cast
    omega
  constructor
  · -- modifier 1: satellite at rest, eccentricity exactly 1
    have hsat := addSatellite_ok (c9SimOf (v * v * (10 * d)))
      (c9StarOf (v * v * (10 * d))) (JF.fin ⟨(m : Int), 1⟩)
      ⟨JF.fin ⟨(d : Int), 1⟩, JF.fin ⟨0, 1⟩⟩ (JF.ofInt 1) sign hm'
      ⟨JF.fin ⟨0, d * (10 * (d * d))⟩, JF.fin ⟨0, d * (10 * (d * d))⟩⟩
      (c9_vv_one (v * v * (10 * d)) d sign hd).symm
    have hB : (
        { id := (c9SimOf (v * v * (10 * d))).nextId,
          mass := JF.fin ⟨(m : Int), 1⟩,
          position := ⟨(c9StarOf (v * v * (10 * d))).position.x.add
              (JF.fin ⟨(d : Int), 1⟩),
            (c9StarOf (v * v * (10 * d))).position.y.add (JF.fin ⟨0, 1⟩)⟩,
          velocity := ⟨(⟨JF.fin ⟨0, d * (10 * (d * d))⟩,
              JF.fin ⟨0, d * (10 * (d * d))⟩⟩ : Vec).x,
            (⟨JF.fin ⟨0, d * (10 * (d * d))⟩,
              JF.fin ⟨0, d * (10 * (d * d))⟩⟩ : Vec).y⟩,
          acceleration := Vec.zero,
          parent := some (c9StarOf (v * v * (10 * d))).id, timeOut := 100,
          eccentricityVector := Vec.zero, eccentricity := JF.ofInt 0,
          semimajorAxis := JF.ofInt 0, semiminorAxis := JF.ofInt 0 } : Body) =
        c9Body m d 0 (d * (10 * (d * d))) := by
      simp only [c9Body, c9StarOf, c9SimOf, mkTestBody, JF.add, QQ.add,
        Body.mk.injEq, Vec.mk.injEq, JF.fin.injEq, QQ.mk.injEq,
        Option.some.injEq]
      and_intros <;> push_cast <;> ring_nf
    rw [hB] at hsat
    refine ⟨(calculateOrbitalParameters (c9SimOf (v * v * (10 * d)))
      (c9Body m d 0 (d * (10 * (d * d))))).1, hsat, ?_, ?_⟩
    · rw [calc_velocity]
      simp [c9Body, Vec.numEq, JF.numEq, QQ.beq, Vec.zero, JF.ofInt, QQ.ofInt]
    · rw [c9_calc_ecc (v * v * (10 * d)) m d 0 (d * (10 * (d * d))) hd hMm]
      have hEvN : c9EvN (v * v * (10 * d)) m d 0 (d * (10 * (d * d))) =
          -((c9EvD (v * v * (10 * d)) m d (d * (10 * (d * d))) : Nat) : Int) := by
        simp only [c9EvN, c9EvD]
        push_cast
        ring
      rw [show JF.ofInt 1 = JF.fin ⟨1, 1⟩ from rfl]
      simp only [JF.numEq, QQ.beq, hEvN, Int.natAbs_neg, Int.natAbs_ofNat,
        beq_iff_eq]
      push_cast
      ring
  · -- modifier 0: eccentricity exactly m / (M + m)
    have hsat := addSatellite_ok (c9SimOf (v * v * (10 * d)))
      (c9StarOf (v * v * (10 * d))) (JF.fin ⟨(m : Int), 1⟩)
      ⟨JF.fin ⟨(d : Int), 1⟩, JF.fin ⟨0, 1⟩⟩ (JF.ofInt 0) sign hm'
      ⟨JF.fin ⟨0, d * (10 * (d * d))⟩,
        JF.fin ⟨(if sign then (1 : Int) else -1) *
          ((d * (10 * (v * (d * d))) : Nat) : Int), d * (10 * (d * d))⟩⟩
      (c9_vv_zero (v * v * (10 * d)) d v sign hd rfl).symm
    have hB : (
        { id := (c9SimOf (v * v * (10 * d))).nextId,
          mass := JF.fin ⟨(m : Int), 1⟩,
          position := ⟨(c9StarOf (v * v * (10 * d))).position.x.add
              (JF.fin ⟨(d : Int), 1⟩),
            (c9StarOf (v * v * (10 * d))).position.y.add (JF.fin ⟨0, 1⟩)⟩,
          velocity := ⟨(⟨JF.fin ⟨0, d * (10 * (d * d))⟩,
              JF.fin ⟨(if sign then (1 : Int) else -1) *
                ((d * (10 * (v * (d * d))) : Nat) : Int),
                d * (10 * (d * d))⟩⟩ : Vec).x,
            (⟨JF.fin ⟨0, d * (10 * (d * d))⟩,
              JF.fin ⟨(if sign then (1 : Int) else -1) *
                ((d * (10 * (v * (d * d))) : Nat) : Int),
                d * (10 * (d * d))⟩⟩ : Vec).y⟩,
          acceleration := Vec.zero,
          parent := some (c9StarOf (v * v * (10 * d))).id, timeOut := 100,
          eccentricityVector := Vec.zero, eccentricity := JF.ofInt 0,
          semimajorAxis := JF.ofInt 0, semiminorAxis := JF.ofInt 0 } : Body) =
        c9Body m d ((if sign then (1 : Int) else -1) *
          ((d * (10 * (v * (d * d))) : Nat) : Int)) (d * (10 * (d * d))) := by
      simp only [c9Body, c9StarOf, c9SimOf, mkTestBody, JF.add, QQ.add,
        Body.mk.injEq, Vec.mk.injEq, JF.fin.injEq, QQ.mk.injEq,
        Option.some.injEq]
      and_intros <;> push_cast <;> ring_nf
    rw [hB] at hsat
    refine ⟨(calculateOrbitalParameters (c9SimOf (v * v * (10 * d)))
      (c9Body m d ((if sign then (1 : Int) else -1) *
        ((d * (10 * (v * (d * d))) : Nat) : Int))
        (d * (10 * (d * d))))).1, hsat, ?_⟩
    rw [c9_calc_ecc (v * v * (10 * d)) m d _ (d * (10 * (d * d))) hd hMm]
    have hEvN : c9EvN (v * v * (10 * d)) m d
        ((if sign then (1 : Int) else -1) *
          ((d * (10 * (v * (d * d))) : Nat) : Int)) (d * (10 * (d * d))) =
        -((m * (d * ((d * (10 * (d * d))) * ((d * (10 * (d * d))) *
          (d * (10 * (d * d)))))) : Nat) : Int) := by
      simp only [c9EvN, c9EvD]
      cases sign <;> (norm_num; ring)
    simp only [JF.numEq, QQ.beq, hEvN, Int.natAbs_neg, Int.natAbs_ofNat,
      c9EvD, beq_iff_eq]
    push_cast
    ring

/-- C9 witness: the amended theorem at the concrete configuration star mass
40, satellite mass 10, distance 4, circular speed 1 (1·1·10·4 = 40):
modifier 1 gives a resting satellite with eccentricity 1, modifier 0 gives
eccentricity 10/50 = 1/5. -/
theorem C9_witness :
    (∃ sat, addSatellite (c9SimOf 40) (c9StarOf 40) (JF.fin ⟨(10 : Int), 1⟩)
        ⟨JF.fin ⟨(4 : Int), 1⟩, JF.fin ⟨0, 1⟩⟩ (JF.ofInt 1) true =
          Except.ok { c9SimOf 40 with
            bodies := (c9SimOf 40).bodies ++ [sat],
            nextId := (c9SimOf 40).nextId + 1 } ∧
        Vec.numEq sat.velocity Vec.zero = true ∧
        sat.eccentricity.numEq (JF.ofInt 1) = true) ∧
    (∃ sat, addSatellite (c9SimOf 40) (c9StarOf 40) (JF.fin ⟨(10 : Int), 1⟩)
        ⟨JF.fin ⟨(4 : Int), 1⟩, JF.fin ⟨0, 1⟩⟩ (JF.ofInt 0) true =
          Except.ok { c9SimOf 40 with
            bodies := (c9SimOf 40).bodies ++ [sat],
            nextId := (c9SimOf 40).nextId + 1 } ∧
        sat.eccentricity.numEq (JF.fin ⟨(10 : Int), 40 + 10⟩) = true) :=
  C9_amended_circular_is_modifier_zero 40 10 4 1 true (by decide) (by decide)
    (by decide)

end Gravity
